import Mathlib

/-!
Verification of the memory-keeper storage/sync core.

Shallow embedding of the repository's storage layer:
* the entity model (`Memory`, `MediaAttachment`, `MemoryInput`) from
  `src/types/Memory.ts`,
* the `GoogleDriveProvider` adapter (cloud-file-store variant),
* the `CloudKitProvider` adapter together with the native `CloudKitPlugin`
  record store (Swift), and
* the `MigrationService` (Firebase export / re-import pipeline).

Asynchronous I/O is modelled by explicit state passing: every operation takes
an environment (the behaviour of the remote backend and of the wall clock) and
a provider state, and returns the new state, the list of observable effects
(network calls, listener notifications) in order, and either a result or the
error that the promise rejects with.  Timestamps are logical: the runtime's
`Date()` is an oracle `time : Nat -> Nat` applied to a per-state counter of
clock readings, so consecutive readings may or may not coincide, exactly as
two wall-clock readings may or may not fall into the same rendered second.
Client-generated identifiers (`uuidv4`, server-assigned file ids) are drawn
from a deterministic fresh counter, which models their uniqueness.
-/

namespace MemoryKeeper

/-- Error taxonomy of `StorageError` (`src/services/storage/StorageProvider.ts`). -/
inductive ECode where
  | not_initialized
  | not_authenticated
  | not_found
  | permission_denied
  | quota_exceeded
  | network_error
  | sync_conflict
  | unknown
deriving Repr, DecidableEq

/-- A rejected promise: either a `StorageError` (with its `code` and `message`)
or a plain JavaScript `Error` / native plugin rejection carrying a message. -/
inductive Err where
  | storage (code : ECode) (message : String)
  | js (message : String)
deriving Repr, DecidableEq

/-- The `code` of a `StorageError` rejection, `none` for success or for a
rejection that is not a `StorageError`. -/
def resultCode {α : Type} : Except Err α → Option ECode
  | .error (.storage c _) => some c
  | _ => none

/-- Observable side effects of one provider operation, in order of occurrence:
network/IO calls of the Google Drive adapter, calls into the native CloudKit
plugin, Firebase reads, and listener notification rounds. -/
inductive Eff where
  | netFindFile
  | netCreateFile
  | netSaveDoc
  | netLoadDoc
  | netUploadMedia
  | netDeleteMedia
  | ckInit
  | ckSaveRecord
  | ckFetchRecord
  | ckUpdateRecord
  | ckDeleteRecord
  | ckFetchAll
  | ckUploadMedia
  | ckDeleteMedia
  | fireGetDocs
  | fireGetBlob
  | notify
deriving Repr, DecidableEq

/-- Every effect except a listener notification reaches the network or disk. -/
def Eff.isNetwork : Eff → Bool
  | .notify => false
  | _ => true

/-- `MediaAttachment.type` (`src/types/Memory.ts`). -/
inductive MediaType where
  | image
  | audio
  | video
deriving Repr, DecidableEq

/-- String rendering of a media type, as it appears in serialized JSON. -/
def MediaType.toTag : MediaType → String
  | .image => "image"
  | .audio => "audio"
  | .video => "video"

/-- `MediaAttachment` (`src/types/Memory.ts`). -/
structure MediaAttachment where
  id : String
  type : MediaType
  url : String
  fileName : String
  storagePath : String
deriving Repr, DecidableEq

/-- `Memory` (`src/types/Memory.ts`); timestamps are logical clock values. -/
structure Memory where
  id : String
  text : String
  tags : List String
  media : List MediaAttachment
  createdAt : Nat
  updatedAt : Nat
  userId : String
deriving Repr, DecidableEq

/-- A raw browser `File`: declared name, declared MIME type and contents. -/
structure DFile where
  name : String
  mimeType : String
  data : String
deriving Repr, DecidableEq

/-- `MemoryInput` (`src/types/Memory.ts`). -/
structure MemoryInput where
  text : String
  tags : List String
  mediaFiles : List DFile
deriving Repr, DecidableEq

/-- The `updates` argument of `updateMemory`: a JavaScript object of type
`Partial<Pick<Memory, 'text' | 'tags'>>`; `none` models an absent key. -/
structure MemUpdates where
  text : Option String
  tags : Option (List String)
deriving Repr, DecidableEq

/-- The empty partial update `\x7b\x7d`. -/
def MemUpdates.empty : MemUpdates := ⟨none, none⟩

/-- `SyncResult` (`src/services/platform/types.ts`); conflict pairs are not
produced by either adapter so the list stays abstractly typed by `Memory`. -/
structure SyncResult where
  success : Bool
  uploaded : Nat
  downloaded : Nat
  conflicts : List (Memory × Memory)
  errors : List String
deriving Repr, DecidableEq

/-- Character-list prefix test (the semantics of `String.startsWith`). -/
def charsPrefix : List Char → List Char → Bool
  | [], _ => true
  | _ :: _, [] => false
  | p :: ps, c :: cs => p == c && charsPrefix ps cs

/-- The characters after the last `.` of a name, `none` when it has none
(the semantics of `split('.').pop()` past a dot, and of `pathExtension`). -/
def afterLastDot : List Char → Option (List Char)
  | [] => none
  | c :: cs =>
    match afterLastDot cs with
    | some r => some r
    | none => if c = '.' then some cs else none

/-- ASCII lower-casing of one character (`toLowerCase` on the inputs that
occur here). -/
def charToLower (c : Char) : Char :=
  if 65 ≤ c.toNat ∧ c.toNat ≤ 90 then Char.ofNat (c.toNat + 32) else c

/-- ASCII lower-casing of a string. -/
def strToLower (s : String) : String := String.mk (s.data.map charToLower)

/-- Media-type classification shared by both adapters and the native plugin:
`audio/*` is audio, `video/*` is video, everything else is an image. -/
def mediaTypeOfMime (mime : String) : MediaType :=
  if charsPrefix "audio/".data mime.data then .audio
  else if charsPrefix "video/".data mime.data then .video
  else .image

/-- Client-side generated identifier (model of `uuidv4()` / `UUID().uuidString`):
the `n`-th fresh token of a provider instance. -/
def uuidStr (n : Nat) : String := "uuid-" ++ toString n

/-- Server-assigned Google Drive file identifier for the `n`-th created object. -/
def driveSrvId (n : Nat) : String := "drv-" ++ toString n

end MemoryKeeper

namespace MemoryKeeper

/-! ### JSON

The CloudKit record field `media` holds a serialized JSON array
(`JSON.stringify` on write, `JSON.parse` on read).  The functions below model
the ECMAScript `JSON` object of the JavaScript runtime (an external
collaborator of the repository): values are modelled structurally, number
literals are kept as uninterpreted lexemes, and `JSON.parse` is a fueled
recursive-descent parser over the character list of the input. -/

/-- A JavaScript JSON value. -/
inductive Json where
  | null : Json
  | bool : Bool → Json
  | num : String → Json
  | str : String → Json
  | arr : List Json → Json
  | obj : List (String × Json) → Json
deriving Repr

/-- JavaScript truthiness of a JSON value (`null`, `false`, the empty string
and numeric zero are falsy; arrays and objects are always truthy). -/
def Json.truthy : Json → Bool
  | .null => false
  | .bool b => b
  | .str s => s ≠ ""
  | .num lex => ¬((lex.data.filter (fun c => c.isDigit)) ≠ [] ∧
      (lex.data.filter (fun c => c.isDigit)).all (fun c => c = '0'))
  | .arr _ => true
  | .obj _ => true

/-- Reading `v.k` on a JSON value when the result is a string; `none` models
`undefined` or a non-string field. -/
def Json.getStr (v : Json) (k : String) : Option String :=
  match v with
  | .obj kvs =>
    match kvs.find? (fun kv => kv.1 == k) with
    | some (_, .str s) => some s
    | _ => none
  | _ => none

/-- Lower-case hexadecimal digit. -/
def hexDigitChar (n : Nat) : Char :=
  if n < 10 then Char.ofNat (48 + n) else Char.ofNat (87 + n)

/-- Value of a hexadecimal digit character. -/
def hexVal (c : Char) : Option Nat :=
  if 48 ≤ c.toNat ∧ c.toNat ≤ 57 then some (c.toNat - 48)
  else if 97 ≤ c.toNat ∧ c.toNat ≤ 102 then some (c.toNat - 87)
  else if 65 ≤ c.toNat ∧ c.toNat ≤ 70 then some (c.toNat - 55)
  else none

/-- The backspace, tab, newline, form-feed and carriage-return characters. -/
def bsC : Char := Char.ofNat 8
def tabC : Char := Char.ofNat 9
def nlC : Char := Char.ofNat 10
def ffC : Char := Char.ofNat 12
def crC : Char := Char.ofNat 13

/-- How `JSON.stringify` escapes one character inside a string literal. -/
def escChar (c : Char) : List Char :=
  if c = '"' then ['\\', '"']
  else if c = '\\' then ['\\', '\\']
  else if c = bsC then ['\\', 'b']
  else if c = tabC then ['\\', 't']
  else if c = nlC then ['\\', 'n']
  else if c = ffC then ['\\', 'f']
  else if c = crC then ['\\', 'r']
  else if c.toNat < 32 then
    ['\\', 'u', '0', '0', hexDigitChar (c.toNat / 16), hexDigitChar (c.toNat % 16)]
  else [c]

/-- Escaping of a whole character sequence. -/
def escChars : List Char → List Char
  | [] => []
  | c :: cs => escChar c ++ escChars cs

/-- A quoted JSON string literal for `s`. -/
def quoteStr (s : String) : List Char := '"' :: (escChars s.data ++ ['"'])

mutual

/-- `JSON.stringify` (character-list form).  Key order of objects is the
insertion order of the serialized JavaScript object, as in the runtime. -/
def stringifyVal : Json → List Char
  | .null => "null".data
  | .bool true => "true".data
  | .bool false => "false".data
  | .num lex => lex.data
  | .str s => quoteStr s
  | .arr l => '[' :: (stringifyElems l ++ [']'])
  | .obj kvs => '\x7b' :: (stringifyMembers kvs ++ ['\x7d'])

/-- Comma-separated serialization of array elements. -/
def stringifyElems : List Json → List Char
  | [] => []
  | [v] => stringifyVal v
  | v :: rest => stringifyVal v ++ ',' :: stringifyElems rest

/-- Comma-separated serialization of object members. -/
def stringifyMembers : List (String × Json) → List Char
  | [] => []
  | [kv] => quoteStr kv.1 ++ ':' :: stringifyVal kv.2
  | kv :: rest => (quoteStr kv.1 ++ ':' :: stringifyVal kv.2) ++ ',' :: stringifyMembers rest

end

/-- `JSON.stringify` as a string transformer. -/
def jsonStringify (v : Json) : String := String.mk (stringifyVal v)

/-- JSON insignificant whitespace. -/
def isJsonWs (c : Char) : Bool :=
  c == ' ' || c == tabC || c == nlC || c == crC

/-- Skip insignificant whitespace. -/
def skipWs (cs : List Char) : List Char := cs.dropWhile isJsonWs

/-- Single-character escapes accepted after a backslash. -/
def unescapeChar (e : Char) : Option Char :=
  if e = '"' then some '"'
  else if e = '\\' then some '\\'
  else if e = '/' then some '/'
  else if e = 'b' then some bsC
  else if e = 't' then some tabC
  else if e = 'n' then some nlC
  else if e = 'f' then some ffC
  else if e = 'r' then some crC
  else none

/-- Body of a JSON string literal (after the opening quote): returns the
decoded characters and the input after the closing quote.  A backslash is
followed either by `u` and four hexadecimal digits or by a single-character
escape; an unescaped control character is rejected. -/
def parseJChars : List Char → Option (List Char × List Char)
  | [] => none
  | '"' :: cs => some ([], cs)
  | '\\' :: 'u' :: h1 :: h2 :: h3 :: h4 :: cs =>
    match hexVal h1, hexVal h2, hexVal h3, hexVal h4 with
    | some a, some b, some c2, some d =>
      (parseJChars cs).map
        (fun pr => (Char.ofNat (4096 * a + 256 * b + 16 * c2 + d) :: pr.1, pr.2))
    | _, _, _, _ => none
  | '\\' :: e :: cs =>
    match unescapeChar e with
    | some u => (parseJChars cs).map (fun pr => (u :: pr.1, pr.2))
    | none => none
  | c :: cs =>
    if c.toNat < 32 then none
    else (parseJChars cs).map (fun pr => (c :: pr.1, pr.2))

/-- Characters that may occur in a number lexeme. -/
def isNumChar (c : Char) : Bool :=
  c.isDigit || c == '-' || c == '+' || c == '.' || c == 'e' || c == 'E'

/-- Lex a number token (kept as an uninterpreted lexeme; the grammar of the
lexeme itself is not refined further since no repository code path depends on
numeric JSON values). -/
def parseNumLex (cs : List Char) : Option (String × List Char) :=
  let lex := cs.takeWhile isNumChar
  if lex.isEmpty then none else some (String.mk lex, cs.dropWhile isNumChar)

mutual

/-- Fueled recursive-descent JSON value parser (model of `JSON.parse`). -/
def parseVal : Nat → List Char → Option (Json × List Char)
  | 0, _ => none
  | fuel + 1, cs =>
    match skipWs cs with
    | [] => none
    | c :: cs' =>
      if c = 'n' then
        match cs' with
        | 'u' :: 'l' :: 'l' :: rest => some (.null, rest)
        | _ => none
      else if c = 't' then
        match cs' with
        | 'r' :: 'u' :: 'e' :: rest => some (.bool true, rest)
        | _ => none
      else if c = 'f' then
        match cs' with
        | 'a' :: 'l' :: 's' :: 'e' :: rest => some (.bool false, rest)
        | _ => none
      else if c = '"' then
        (parseJChars cs').map (fun pr => (.str (String.mk pr.1), pr.2))
      else if c = '[' then
        (parseElems fuel cs').map (fun pr => (.arr pr.1, pr.2))
      else if c = '\x7b' then
        (parseMembers fuel cs').map (fun pr => (.obj pr.1, pr.2))
      else if c.isDigit || c = '-' then
        (parseNumLex (c :: cs')).map (fun pr => (.num pr.1, pr.2))
      else none

/-- Array elements after the opening bracket. -/
def parseElems : Nat → List Char → Option (List Json × List Char)
  | 0, _ => none
  | fuel + 1, cs =>
    match skipWs cs with
    | ']' :: rest => some ([], rest)
    | _ =>
      match parseVal fuel cs with
      | some (v, rest1) =>
        match skipWs rest1 with
        | ',' :: rest2 => (parseElems fuel rest2).map (fun pr => (v :: pr.1, pr.2))
        | ']' :: rest2 => some ([v], rest2)
        | _ => none
      | none => none

/-- Object members after the opening brace. -/
def parseMembers : Nat → List Char → Option (List (String × Json) × List Char)
  | 0, _ => none
  | fuel + 1, cs =>
    match skipWs cs with
    | '\x7d' :: rest => some ([], rest)
    | '"' :: cs' =>
      match parseJChars cs' with
      | some (key, rest1) =>
        match skipWs rest1 with
        | ':' :: rest2 =>
          match parseVal fuel rest2 with
          | some (v, rest3) =>
            match skipWs rest3 with
            | ',' :: rest4 =>
              (parseMembers fuel rest4).map
                (fun pr => ((String.mk key, v) :: pr.1, pr.2))
            | '\x7d' :: rest4 => some ([(String.mk key, v)], rest4)
            | _ => none
          | none => none
        | _ => none
      | none => none
    | _ => none

end

/-- `JSON.parse`: `none` models a thrown `SyntaxError`.  The fuel exceeds the
nesting depth of any parseable input of that length. -/
def jsonParse (s : String) : Option Json :=
  match parseVal (s.data.length + 2) s.data with
  | some (v, rest) => if (skipWs rest).isEmpty then some v else none
  | none => none

/-- The JSON object a `MediaAttachment` serializes to: key order is the
construction order of the attachment object in `uploadMedia`. -/
def attachmentToJson (a : MediaAttachment) : Json :=
  .obj [("id", .str a.id), ("type", .str a.type.toTag), ("url", .str a.url),
        ("fileName", .str a.fileName), ("storagePath", .str a.storagePath)]

/-- `JSON.stringify(mediaAttachments)` for an attachment array. -/
def serializeAttachments (atts : List MediaAttachment) : String :=
  jsonStringify (.arr (atts.map attachmentToJson))

end MemoryKeeper

namespace MemoryKeeper

/-! ### GoogleDriveProvider

Model of the cloud-file-store adapter
(`src/services/storage/GoogleDriveProvider.ts`): the whole collection lives in
one remote JSON document, every write re-serializes the in-memory array and
overwrites that document.  The repository carries two variants of this file
(an appDataFolder-token variant and an Android/Web variant); they agree on all
behaviour modelled here except where a comment notes the difference, and the
model follows the appDataFolder variant that the claims cite.  The
`findIndex`/index-assignment idiom on the cache is rendered as first-match
replacement, which is exactly what assigning at the found index does. -/

/-- Behaviour of the remote Drive endpoint and of the clock, fixed per run. -/
structure DriveEnv where
  time : Nat → Nat
  authOk : Bool
  uploadOk : DFile → Bool
  saveOk : Bool
  loadOk : Bool
  remoteDoc : Option (List Memory)
  findFileId : Option String

/-- Mutable instance state of a `GoogleDriveProvider`. -/
structure DriveState where
  userId : Option String
  initialized : Bool
  memories : List Memory
  memoriesFileId : Option String
  dateCalls : Nat
  fresh : Nat
deriving Repr, DecidableEq

/-- A provider as constructed: nothing initialized, empty cache. -/
def DriveState.fresh0 : DriveState :=
  { userId := none, initialized := false, memories := [],
    memoriesFileId := none, dateCalls := 0, fresh := 0 }

/-- One `new Date()` reading. -/
def DriveState.date (env : DriveEnv) (s : DriveState) : Nat × DriveState :=
  (env.time s.dateCalls, { s with dateCalls := s.dateCalls + 1 })

/-- Replace the first cache entry with the given id (the effect of
`findIndex` followed by assignment at that index). -/
def replaceById (l : List Memory) (i : String) (m' : Memory) : List Memory :=
  match l with
  | [] => []
  | m :: rest => if m.id == i then m' :: rest else m :: replaceById rest i m'

namespace GoogleDrive

/-- The `not_initialized` rejection of `ensureInitialized`. -/
def notInitErr : Err :=
  .storage .not_initialized "Google Drive not initialized. Call initialize() first."

/-- `uploadMedia`: multipart-upload one file into the appDataFolder.  The
client generates the attachment id before the network call; the server
assigns the Drive file id that becomes `storagePath` and the `url`.  Every
failure (including a missing access token) is wrapped into `unknown`. -/
def uploadMedia (env : DriveEnv) (s : DriveState) (file : DFile) :
    DriveState × List Eff × Except Err MediaAttachment :=
  if ¬s.initialized then (s, [], .error notInitErr)
  else if ¬env.authOk then (s, [], .error (.storage .unknown "Failed to upload media"))
  else
    let fileId := uuidStr s.fresh
    let s1 := { s with fresh := s.fresh + 1 }
    if env.uploadOk file then
      let srvId := driveSrvId s1.fresh
      let s2 := { s1 with fresh := s1.fresh + 1 }
      (s2, [.netUploadMedia], .ok
        { id := fileId, type := mediaTypeOfMime file.mimeType,
          url := "https://www.googleapis.com/drive/v3/files/" ++ srvId ++ "?alt=media",
          fileName := file.name, storagePath := srvId })
    else (s1, [.netUploadMedia], .error (.storage .unknown "Failed to upload media"))

/-- Sequential upload of a list of files (the `for` loops of `createMemory`
and `updateMemory`); stops at the first failure. -/
def uploadAll (env : DriveEnv) : DriveState → List DFile →
    DriveState × List Eff × Except Err (List MediaAttachment)
  | s, [] => (s, [], .ok [])
  | s, f :: fs =>
    match uploadMedia env s f with
    | (s1, e1, .ok a) =>
      match uploadAll env s1 fs with
      | (s2, e2, .ok rest) => (s2, e1 ++ e2, .ok (a :: rest))
      | (s2, e2, .error e) => (s2, e1 ++ e2, .error e)
    | (s1, e1, .error e) => (s1, e1, .error e)

/-- `saveMemories`: serialize the whole cache and overwrite the remote
document; silently a no-op when no document id is known yet. -/
def saveMemories (env : DriveEnv) (s : DriveState) :
    List Eff × Except Err Unit :=
  match s.memoriesFileId with
  | none => ([], .ok ())
  | some _ =>
    if ¬env.authOk then ([], .error (.storage .not_authenticated "Not authenticated with Google"))
    else if env.saveOk then ([.netSaveDoc], .ok ())
    else ([.netSaveDoc], .error (.js "Failed to save memories"))

/-- `loadMemories`: download and replace the cache; a no-op without a known
document id; a missing or empty remote document yields an empty cache. -/
def loadMemories (env : DriveEnv) (s : DriveState) :
    DriveState × List Eff × Except Err Unit :=
  match s.memoriesFileId with
  | none => (s, [], .ok ())
  | some _ =>
    if ¬env.authOk then (s, [], .error (.storage .not_authenticated "Not authenticated with Google"))
    else if env.loadOk then
      ({ s with memories := env.remoteDoc.getD [] }, [.netLoadDoc], .ok ())
    else (s, [.netLoadDoc], .error (.js "Failed to load memories"))

/-- `initialize(userId)`: idempotent for the same user; finds or creates the
remote document, loads the collection, and only then marks the instance
initialized.  Any failure is wrapped into a `not_initialized` error. -/
def initProvider (env : DriveEnv) (s : DriveState) (userId : String) :
    DriveState × List Eff × Except Err Unit :=
  if s.initialized ∧ s.userId = some userId then (s, [], .ok ())
  else
    let s0 := { s with userId := some userId }
    let fail := fun (s' : DriveState) (effs : List Eff) =>
      (s', effs, Except.error (Err.storage .not_initialized "Failed to initialize Google Drive storage"))
    if ¬env.authOk then fail s0 []
    else
      match env.findFileId with
      | some fid =>
        let s1 := { s0 with memoriesFileId := some fid }
        let r := loadMemories env s1
        match r.2.2 with
        | .ok _ => ({ r.1 with initialized := true }, .netFindFile :: r.2.1, .ok ())
        | .error _ => fail r.1 (.netFindFile :: r.2.1)
      | none =>
        let fid := driveSrvId s0.fresh
        let s1 := { s0 with memoriesFileId := some fid, fresh := s0.fresh + 1 }
        let sv := saveMemories env s1
        match sv.2 with
        | .ok _ =>
          let r := loadMemories env s1
          match r.2.2 with
          | .ok _ =>
            ({ r.1 with initialized := true },
             .netFindFile :: .netCreateFile :: (sv.1 ++ r.2.1), .ok ())
          | .error _ => fail r.1 (.netFindFile :: .netCreateFile :: (sv.1 ++ r.2.1))
        | .error _ => fail s1 (.netFindFile :: .netCreateFile :: sv.1)

/-- `createMemory`: upload all media in input order, build the record with one
clock reading for both timestamps, prepend it to the cache, overwrite the
remote document, notify.  Every failure is wrapped into `unknown`; note that
the cache mutation precedes the remote write, as in the source. -/
def createMemory (env : DriveEnv) (s : DriveState) (input : MemoryInput) :
    DriveState × List Eff × Except Err Memory :=
  if ¬s.initialized then (s, [], .error notInitErr)
  else
    match uploadAll env s input.mediaFiles with
    | (s1, effs, .error _) =>
      (s1, effs, .error (.storage .unknown "Failed to create memory"))
    | (s1, effs, .ok atts) =>
      let now := env.time s1.dateCalls
      let memory : Memory :=
        { id := uuidStr s1.fresh, text := input.text, tags := input.tags,
          media := atts, createdAt := now, updatedAt := now,
          userId := s.userId.getD "" }
      let s3 := { s1 with dateCalls := s1.dateCalls + 1, fresh := s1.fresh + 1, memories := memory :: s1.memories }
      let sv := saveMemories env s3
      match sv.2 with
      | .ok _ => (s3, effs ++ sv.1 ++ [.notify], .ok memory)
      | .error _ =>
        (s3, effs ++ sv.1, .error (.storage .unknown "Failed to create memory"))

/-- `updateMemory`: `not_found` when the id is absent from the cache; uploads
are appended to a copy of the existing media; absent keys of `updates` leave
the field unchanged (`?? existing` in one repo variant, object spread in the
other — identical for absent keys); `updatedAt` is re-read from the clock.
`StorageError`s are re-thrown unchanged, other failures become `unknown`. -/
def updateMemory (env : DriveEnv) (s : DriveState) (memoryId : String)
    (updates : MemUpdates) (newMediaFiles : List DFile) :
    DriveState × List Eff × Except Err Memory :=
  if ¬s.initialized then (s, [], .error notInitErr)
  else
    match s.memories.find? (fun m => m.id == memoryId) with
    | none => (s, [], .error (.storage .not_found "Memory not found"))
    | some existing =>
      match uploadAll env s newMediaFiles with
      | (s1, effs, .error e) => (s1, effs, .error e)
      | (s1, effs, .ok atts) =>
        let now := env.time s1.dateCalls
        let updated : Memory :=
          { existing with
            text := updates.text.getD existing.text,
            tags := updates.tags.getD existing.tags,
            media := existing.media ++ atts,
            updatedAt := now }
        let s3 := { s1 with dateCalls := s1.dateCalls + 1, memories := replaceById s1.memories memoryId updated }
        let sv := saveMemories env s3
        match sv.2 with
        | .ok _ => (s3, effs ++ sv.1 ++ [.notify], .ok updated)
        | .error _ =>
          (s3, effs ++ sv.1, .error (.storage .unknown "Failed to update memory"))

/-- `deleteMemory`: best-effort delete of each attachment of the memory (every
rejection of `deleteMedia` is swallowed by `.catch`), then filter the cache,
overwrite the remote document and notify; never `not_found`. -/
def deleteMemory (env : DriveEnv) (s : DriveState) (memoryId : String) :
    DriveState × List Eff × Except Err Unit :=
  if ¬s.initialized then (s, [], .error notInitErr)
  else
    let effs :=
      match s.memories.find? (fun m => m.id == memoryId) with
      | none => []
      | some memory => memory.media.map (fun _ => Eff.netDeleteMedia)
    let s1 := { s with memories := s.memories.filter (fun m => ¬(m.id == memoryId)) }
    let sv := saveMemories env s1
    match sv.2 with
    | .ok _ => (s1, effs ++ sv.1 ++ [.notify], .ok ())
    | .error _ =>
      (s1, effs ++ sv.1, .error (.storage .unknown "Failed to delete memory"))

/-- `getMemories`: the cache, no network. -/
def getMemories (s : DriveState) :
    DriveState × List Eff × Except Err (List Memory) :=
  if ¬s.initialized then (s, [], .error notInitErr)
  else (s, [], .ok s.memories)

/-- `getMemory`: first cache entry with the id, `none` when absent. -/
def getMemory (s : DriveState) (memoryId : String) :
    DriveState × List Eff × Except Err (Option Memory) :=
  if ¬s.initialized then (s, [], .error notInitErr)
  else (s, [], .ok (s.memories.find? (fun m => m.id == memoryId)))

/-- `deleteMedia`: DELETE on the stored Drive file id; a 404 counts as
success; other failures are wrapped into `unknown`. -/
def deleteMedia (env : DriveEnv) (s : DriveState) (_mediaId : String)
    (_storagePath : String) : DriveState × List Eff × Except Err Unit :=
  if ¬s.initialized then (s, [], .error notInitErr)
  else if ¬env.authOk then (s, [], .error (.storage .unknown "Failed to delete media"))
  else (s, [.netDeleteMedia], .ok ())

/-- `removeMediaFromMemory`: `not_found` when the memory is absent;
best-effort blob delete, then persist the filtered media list.  The variant
modelled here does not refresh `updatedAt` (the other repo variant does); a
failing document write propagates as a plain error since this method has no
`try`/`catch`. -/
def removeMediaFromMemory (env : DriveEnv) (s : DriveState)
    (memoryId : String) (mediaId : String) :
    DriveState × List Eff × Except Err Unit :=
  if ¬s.initialized then (s, [], .error notInitErr)
  else
    match s.memories.find? (fun m => m.id == memoryId) with
    | none => (s, [], .error (.storage .not_found "Memory not found"))
    | some memory =>
      let effs :=
        match memory.media.find? (fun m => m.id == mediaId) with
        | some _ => [Eff.netDeleteMedia]
        | none => []
      let updated := { memory with media := memory.media.filter (fun m => ¬(m.id == mediaId)) }
      let s1 := { s with memories := replaceById s.memories memoryId updated }
      let sv := saveMemories env s1
      match sv.2 with
      | .ok _ => (s1, effs ++ sv.1 ++ [.notify], .ok ())
      | .error e => (s1, effs ++ sv.1, .error e)

/-- `fetchChanges`: reload the document and notify.  Note: this operation does
not call `ensureInitialized`, and on a provider that was never initialized
`loadMemories` returns immediately (no document id), so the call resolves. -/
def fetchChanges (env : DriveEnv) (s : DriveState) :
    DriveState × List Eff × Except Err (List Memory) :=
  let r := loadMemories env s
  match r.2.2 with
  | .ok _ => (r.1, r.2.1 ++ [.notify], .ok r.1.memories)
  | .error e => (r.1, r.2.1, .error e)

/-- `forceSync`: a reload followed by a constant-success report. -/
def forceSync (env : DriveEnv) (s : DriveState) :
    DriveState × List Eff × Except Err SyncResult :=
  let r := fetchChanges env s
  match r.2.2 with
  | .ok mems =>
    (r.1, r.2.1, .ok { success := true, uploaded := 0, downloaded := mems.length,
                       conflicts := [], errors := [] })
  | .error e => (r.1, r.2.1, .error e)

end GoogleDrive

end MemoryKeeper

namespace MemoryKeeper

/-! ### CloudKitProvider and the native CloudKitPlugin

Model of the native-record-store adapter
(`src/services/storage/CloudKitProvider.ts` together with the Swift
`CloudKitPlugin`).  Each memory is one remote record in the private zone; the
record's `media` field is a JSON string.  The TypeScript cache holds the
result of `recordToMemory`, whose `media` is whatever JavaScript value
`JSON.parse` produced — so the cached media is modelled as a `Json` value,
not as a typed attachment list. -/

/-- A cached CloudKit memory (`recordToMemory` output). -/
structure CKMemory where
  id : String
  text : String
  tags : List String
  media : Json
  createdAt : Nat
  updatedAt : Nat
  userId : String
deriving Repr

/-- A record of type `Memory` in the private CloudKit database.  All records
of this zone are created by `saveMemory`, which always sets every field. -/
structure CKRecordS where
  recordName : String
  text : String
  tags : List String
  media : String
  createdAt : Nat
  updatedAt : Nat
deriving Repr, DecidableEq

/-- Behaviour of CloudKit and the clock, fixed per run. -/
structure CKEnv where
  time : Nat → Nat
  initOk : Bool
  fetchRecOk : Bool
  saveOk : Bool
  fetchAllOk : Bool
  uploadOk : DFile → Bool
  deleteMemOk : Bool
  deleteMediaOk : Bool

/-- Combined state of the TypeScript provider and the remote record zone. -/
structure CKState where
  userId : Option String
  initialized : Bool
  memories : List CKMemory
  records : List CKRecordS
  dateCalls : Nat
  fresh : Nat

/-- A provider as constructed, over a given remote zone content. -/
def CKState.mk0 (records : List CKRecordS) : CKState :=
  { userId := none, initialized := false, memories := [],
    records := records, dateCalls := 0, fresh := 0 }

/-- One `Date()` reading on the native side. -/
def CKState.date (env : CKEnv) (s : CKState) : Nat × CKState :=
  (env.time s.dateCalls, { s with dateCalls := s.dateCalls + 1 })

/-- Replace the record with the given name. -/
def replaceRecord (l : List CKRecordS) (rid : String) (r' : CKRecordS) : List CKRecordS :=
  match l with
  | [] => []
  | r :: rest => if r.recordName == rid then r' :: rest else r :: replaceRecord rest rid r'

/-- Insertion into a list kept sorted by `createdAt` descending. -/
def insertByCreatedDesc (r : CKRecordS) : List CKRecordS → List CKRecordS
  | [] => [r]
  | x :: xs => if x.createdAt ≤ r.createdAt then r :: x :: xs else x :: insertByCreatedDesc r xs

/-- `fetchMemories` sort order: `createdAt` descending. -/
def sortByCreatedDesc : List CKRecordS → List CKRecordS
  | [] => []
  | r :: rest => insertByCreatedDesc r (sortByCreatedDesc rest)

namespace CloudKitNative

/-- `CloudKitPlugin.initialize`: idempotent zone creation. -/
def initZone (env : CKEnv) : List Eff × Except Err Unit :=
  if env.initOk then ([.ckInit], .ok ())
  else ([.ckInit], .error (.js "Failed to initialize CloudKit"))

/-- `CloudKitPlugin.saveMemory`: a fresh record name, `createdAt` and
`updatedAt` from two separate `Date()` readings, then a database save. -/
def saveMemory (env : CKEnv) (s : CKState) (text : String) (tags : List String)
    (mediaJson : String) : CKState × List Eff × Except Err CKRecordS :=
  let rid := uuidStr s.fresh
  let cAt := env.time s.dateCalls
  let uAt := env.time (s.dateCalls + 1)
  let s3 := { s with fresh := s.fresh + 1, dateCalls := s.dateCalls + 2 }
  let rec0 : CKRecordS :=
    { recordName := rid, text := text, tags := tags, media := mediaJson,
      createdAt := cAt, updatedAt := uAt }
  if env.saveOk then
    ({ s3 with records := s3.records ++ [rec0] }, [.ckSaveRecord], .ok rec0)
  else (s3, [.ckSaveRecord], .error (.js "Failed to save memory"))

/-- `CloudKitPlugin.updateMemory`: fetch the record by id (rejecting when it
is absent or the fetch fails), overwrite exactly the supplied fields, refresh
`updatedAt` from the clock, save. -/
def updateMemory (env : CKEnv) (s : CKState) (rid : String)
    (text : Option String) (tags : Option (List String)) (media : Option String) :
    CKState × List Eff × Except Err CKRecordS :=
  if ¬env.fetchRecOk then (s, [.ckFetchRecord], .error (.js "Failed to fetch memory"))
  else
    match s.records.find? (fun r => r.recordName == rid) with
    | none => (s, [.ckFetchRecord], .error (.js "Memory not found"))
    | some rec0 =>
      let uAt := env.time s.dateCalls
      let s1 := { s with dateCalls := s.dateCalls + 1 }
      let rec1 : CKRecordS :=
        { rec0 with
          text := text.getD rec0.text,
          tags := tags.getD rec0.tags,
          media := media.getD rec0.media,
          updatedAt := uAt }
      if env.saveOk then
        ({ s1 with records := replaceRecord s1.records rid rec1 },
         [.ckFetchRecord, .ckUpdateRecord], .ok rec1)
      else (s1, [.ckFetchRecord, .ckUpdateRecord], .error (.js "Failed to update memory"))

/-- `CloudKitPlugin.deleteMemory`. -/
def deleteMemory (env : CKEnv) (s : CKState) (rid : String) :
    CKState × List Eff × Except Err Unit :=
  if env.deleteMemOk then
    ({ s with records := s.records.filter (fun r => ¬(r.recordName == rid)) },
     [.ckDeleteRecord], .ok ())
  else (s, [.ckDeleteRecord], .error (.js "Failed to delete memory"))

/-- `CloudKitPlugin.fetchMemories`: all records sorted by `createdAt`
descending. -/
def fetchMemories (env : CKEnv) (s : CKState) :
    List Eff × Except Err (List CKRecordS) :=
  if env.fetchAllOk then ([.ckFetchAll], .ok (sortByCreatedDesc s.records))
  else ([.ckFetchAll], .error (.js "Failed to fetch memories"))

/-- The extension part of a file name (`NSString.pathExtension`): the suffix
after the last dot, empty when the name has no dot. -/
def pathExt (name : String) : String :=
  match afterLastDot name.data with
  | some r => String.mk r
  | none => ""

/-- `CloudKitPlugin.uploadMedia`: decode, write into the iCloud container
under `media/<freshId>.<ext>`, classify the media type from the MIME type. -/
def uploadMedia (env : CKEnv) (s : CKState) (file : DFile) :
    CKState × List Eff × Except Err MediaAttachment :=
  let fileId := uuidStr s.fresh
  let s1 := { s with fresh := s.fresh + 1 }
  let ext := pathExt file.name
  if env.uploadOk file then
    (s1, [.ckUploadMedia], .ok
      { id := fileId, type := mediaTypeOfMime file.mimeType,
        url := "icloud://Documents/media/" ++ fileId ++ "." ++ ext,
        fileName := file.name, storagePath := "media/" ++ fileId ++ "." ++ ext })
  else (s1, [.ckUploadMedia], .error (.js "Failed to copy file to iCloud"))

/-- `CloudKitPlugin.deleteMedia`: removing an already-absent file still
resolves with success. -/
def deleteMedia (env : CKEnv) (_s : CKState) (_storagePath : String) :
    List Eff × Except Err Unit :=
  if env.deleteMediaOk then ([.ckDeleteMedia], .ok ())
  else ([.ckDeleteMedia], .error (.js "iCloud not available"))

end CloudKitNative

namespace CloudKit

/-- The `not_initialized` rejection of `ensureInitialized`. -/
def notInitErr : Err :=
  .storage .not_initialized "CloudKit not initialized. Call initialize() first."

/-- `record.media || '[]'` then `JSON.parse`, with a thrown parse error
degraded to an empty array. -/
def parsedMediaField (s : String) : Json :=
  match jsonParse (if s = "" then "[]" else s) with
  | some v => v
  | none => .arr []

/-- `recordToMemory`: total conversion of a record dictionary into a cached
memory; `media` is whatever JSON value the field parses to. -/
def recordToMemory (userId : Option String) (rec0 : CKRecordS) : CKMemory :=
  { id := rec0.recordName, text := rec0.text, tags := rec0.tags,
    media := parsedMediaField rec0.media,
    createdAt := rec0.createdAt, updatedAt := rec0.updatedAt,
    userId := userId.getD "" }

/-- `fetchAndNotify`: replace the cache from a full fetch and notify; any
failure is logged and the current cache returned instead. -/
def fetchAndNotify (env : CKEnv) (s : CKState) :
    CKState × List Eff × Except Err (List CKMemory) :=
  let r := CloudKitNative.fetchMemories env s
  match r.2 with
  | .ok recs =>
    let mems := recs.map (recordToMemory s.userId)
    ({ s with memories := mems }, r.1 ++ [.notify], .ok mems)
  | .error _ => (s, r.1, .ok s.memories)

/-- `initialize(userId)`: idempotent for the same user; zone creation first,
then the instance is marked initialized and an initial fetch runs (whose
failure is swallowed inside `fetchAndNotify`). -/
def initProvider (env : CKEnv) (s : CKState) (userId : String) :
    CKState × List Eff × Except Err Unit :=
  if s.initialized ∧ s.userId = some userId then (s, [], .ok ())
  else
    let zi := CloudKitNative.initZone env
    match zi.2 with
    | .error _ =>
      (s, zi.1, .error (.storage .not_initialized "Failed to initialize CloudKit"))
    | .ok _ =>
      let s1 := { s with userId := some userId, initialized := true }
      let r := fetchAndNotify env s1
      (r.1, zi.1 ++ r.2.1, .ok ())

/-- Provider `uploadMedia`: base64-encode and hand to the native plugin; any
failure becomes `unknown`. -/
def uploadMedia (env : CKEnv) (s : CKState) (file : DFile) :
    CKState × List Eff × Except Err MediaAttachment :=
  if ¬s.initialized then (s, [], .error notInitErr)
  else
    let r := CloudKitNative.uploadMedia env s file
    match r.2.2 with
    | .ok a => (r.1, r.2.1, .ok a)
    | .error _ =>
      (r.1, r.2.1, .error (.storage .unknown "Failed to upload media"))

/-- The upload-and-push loop of `updateMemory`: each uploaded attachment is
pushed onto the accumulated media value, which must be a JavaScript array for
`push` to exist (otherwise a `TypeError` is thrown). -/
def uploadPush (env : CKEnv) : CKState → Json → List DFile →
    CKState × List Eff × Except Err Json
  | s, acc, [] => (s, [], .ok acc)
  | s, acc, f :: fs =>
    match uploadMedia env s f with
    | (s1, effs, .error e) => (s1, effs, .error e)
    | (s1, effs, .ok a) =>
      match acc with
      | .arr l =>
        let r := uploadPush env s1 (.arr (l ++ [attachmentToJson a])) fs
        (r.1, effs ++ r.2.1, r.2.2)
      | _ => (s1, effs, .error (.js "TypeError: push is not a function"))

/-- `createMemory`: upload all media, save one record whose `media` field is
the serialized attachment array, convert the returned record and prepend it
to the cache; every failure becomes `unknown`. -/
def createMemory (env : CKEnv) (s : CKState) (input : MemoryInput) :
    CKState × List Eff × Except Err CKMemory :=
  if ¬s.initialized then (s, [], .error notInitErr)
  else
    let up := uploadPush env s (.arr []) input.mediaFiles
    match up.2.2 with
    | .error _ =>
      (up.1, up.2.1, .error (.storage .unknown "Failed to create memory"))
    | .ok mediaVal =>
      let sv := CloudKitNative.saveMemory env up.1 input.text input.tags (jsonStringify mediaVal)
      match sv.2.2 with
      | .error _ =>
        (sv.1, up.2.1 ++ sv.2.1, .error (.storage .unknown "Failed to create memory"))
      | .ok rec0 =>
        let memory := recordToMemory sv.1.userId rec0
        let s3 := { sv.1 with memories := memory :: sv.1.memories }
        (s3, up.2.1 ++ sv.2.1 ++ [.notify], .ok memory)

/-- `updateMemory`: no cache existence check — the starting media value is
`existing?.media || []`; new files are uploaded and pushed; the native update
is always sent the serialized media value; the returned record replaces the
cache entry with that id (if any).  Every failure becomes `unknown`. -/
def updateMemory (env : CKEnv) (s : CKState) (memoryId : String)
    (updates : MemUpdates) (newMediaFiles : List DFile) :
    CKState × List Eff × Except Err CKMemory :=
  if ¬s.initialized then (s, [], .error notInitErr)
  else
    let base : Json :=
      match s.memories.find? (fun m => m.id == memoryId) with
      | none => .arr []
      | some m => if m.media.truthy then m.media else .arr []
    let up := uploadPush env s base newMediaFiles
    match up.2.2 with
    | .error _ =>
      (up.1, up.2.1, .error (.storage .unknown "Failed to update memory"))
    | .ok mediaVal =>
      let nu := CloudKitNative.updateMemory env up.1 memoryId updates.text updates.tags
          (some (jsonStringify mediaVal))
      match nu.2.2 with
      | .error _ =>
        (nu.1, up.2.1 ++ nu.2.1, .error (.storage .unknown "Failed to update memory"))
      | .ok rec0 =>
        let memory := recordToMemory nu.1.userId rec0
        let cache := nu.1.memories.map (fun m => if m.id == memoryId then memory else m)
        let s3 := { nu.1 with memories := cache }
        (s3, up.2.1 ++ nu.2.1 ++ [.notify], .ok memory)

/-- JavaScript `for...of` over the cached media value: arrays yield their
elements, strings their characters, anything else is not iterable. -/
def forOfElems : Json → Option (List Json)
  | .arr l => some l
  | .str s => some (s.data.map (fun c => Json.str (String.mk [c])))
  | _ => none

/-- `deleteMemory`: best-effort delete of each attachment blob (rejections
swallowed), native record delete, then filter the cache and notify; every
failure becomes `unknown`, including the `TypeError` from iterating a
non-iterable media value. -/
def deleteMemory (env : CKEnv) (s : CKState) (memoryId : String) :
    CKState × List Eff × Except Err Unit :=
  if ¬s.initialized then (s, [], .error notInitErr)
  else
    let step2 := fun (effs : List Eff) =>
      let nd := CloudKitNative.deleteMemory env s memoryId
      match nd.2.2 with
      | .ok _ =>
        let s2 := { nd.1 with memories := nd.1.memories.filter (fun m => ¬(m.id == memoryId)) }
        (s2, effs ++ nd.2.1 ++ [Eff.notify], Except.ok ())
      | .error _ =>
        (nd.1, effs ++ nd.2.1, Except.error (Err.storage .unknown "Failed to delete memory"))
    match s.memories.find? (fun m => m.id == memoryId) with
    | none => step2 []
    | some memory =>
      match forOfElems memory.media with
      | some elems => step2 (elems.map (fun _ => Eff.ckDeleteMedia))
      | none => (s, [], .error (.storage .unknown "Failed to delete memory"))

/-- `getMemories`: the cache. -/
def getMemories (s : CKState) :
    CKState × List Eff × Except Err (List CKMemory) :=
  if ¬s.initialized then (s, [], .error notInitErr)
  else (s, [], .ok s.memories)

/-- `getMemory`: first cache entry with the id. -/
def getMemory (s : CKState) (memoryId : String) :
    CKState × List Eff × Except Err (Option CKMemory) :=
  if ¬s.initialized then (s, [], .error notInitErr)
  else (s, [], .ok (s.memories.find? (fun m => m.id == memoryId)))

/-- Provider `deleteMedia`: native delete, failures become `unknown`. -/
def deleteMedia (env : CKEnv) (s : CKState) (_mediaId : String)
    (storagePath : String) : CKState × List Eff × Except Err Unit :=
  if ¬s.initialized then (s, [], .error notInitErr)
  else
    let r := CloudKitNative.deleteMedia env s storagePath
    match r.2 with
    | .ok _ => (s, r.1, .ok ())
    | .error _ => (s, r.1, .error (.storage .unknown "Failed to delete media"))

/-- `removeMediaFromMemory`: `not_found` when the memory is absent from the
cache; looks the attachment up by its `id` field inside the cached media
value (which must be an array — otherwise the `TypeError` propagates raw,
this method has no `try`/`catch`), persists the filtered list through the
native update, and patches the cache. -/
def removeMediaFromMemory (env : CKEnv) (s : CKState)
    (memoryId : String) (mediaId : String) :
    CKState × List Eff × Except Err Unit :=
  if ¬s.initialized then (s, [], .error notInitErr)
  else
    match s.memories.find? (fun m => m.id == memoryId) with
    | none => (s, [], .error (.storage .not_found "Memory not found"))
    | some memory =>
      match memory.media with
      | .arr l =>
        let effs :=
          match l.find? (fun j => j.getStr "id" == some mediaId) with
          | some _ => [Eff.ckDeleteMedia]
          | none => []
        let updatedMedia := l.filter (fun j => ¬(j.getStr "id" == some mediaId))
        let nu := CloudKitNative.updateMemory env s memoryId none none
            (some (jsonStringify (.arr updatedMedia)))
        match nu.2.2 with
        | .error e => (nu.1, effs ++ nu.2.1, .error e)
        | .ok _ =>
          let cache := nu.1.memories.map (fun m =>
            if m.id == memoryId then { m with media := Json.arr updatedMedia } else m)
          let s2 := { nu.1 with memories := cache }
          (s2, effs ++ nu.2.1 ++ [.notify], .ok ())
      | _ => (s, [], .error (.js "TypeError: find is not a function"))

/-- `fetchChanges`: just `fetchAndNotify` — no initialization check, and the
call never rejects (fetch failures return the current cache). -/
def fetchChanges (env : CKEnv) (s : CKState) :
    CKState × List Eff × Except Err (List CKMemory) :=
  fetchAndNotify env s

/-- `forceSync`: `fetchAndNotify` followed by a constant-success report. -/
def forceSync (env : CKEnv) (s : CKState) :
    CKState × List Eff × Except Err SyncResult :=
  let r := fetchAndNotify env s
  (r.1, r.2.1, .ok { success := true, uploaded := 0,
                     downloaded := r.1.memories.length, conflicts := [], errors := [] })

end CloudKit

end MemoryKeeper

namespace MemoryKeeper

/-! ### MigrationService

Model of `src/services/migration/MigrationService.ts`: export every Firebase
document of the user into the normalized `Memory` shape while fetching media
blobs best-effort, then re-import through an arbitrary target
`StorageProvider`.  The target is abstracted exactly by the interface the
service calls (`initialize`, `uploadMedia`, `createMemory`, `getMemories`,
`updateMemory`), each as a state transformer on the target's own state. -/

/-- `MigrationProgress.status` values emitted through the progress callback. -/
inductive MStatus where
  | idle
  | connecting
  | fetching
  | uploading
  | complete
  | error
deriving Repr, DecidableEq

/-- A Firestore document of the legacy `memories` collection; optional fields
model `data.field || default` access on the raw document data. -/
structure FireDoc where
  id : String
  text : Option String
  tags : Option (List String)
  media : Option (List MediaAttachment)
  createdAt : Option Nat
  updatedAt : Option Nat
  userId : String

/-- Behaviour of Firebase during one migration run. -/
structure FireEnv where
  queryOk : Bool
  docs : List FireDoc
  blobOk : String → Bool
  blob : String → String

/-- The normalized `Memory` built from one exported document; the
`new Date()` fallback for a missing timestamp is the constant `0` reading. -/
def docToMemory (d : FireDoc) : Memory :=
  { id := d.id, text := d.text.getD "", tags := d.tags.getD [],
    media := d.media.getD [], createdAt := d.createdAt.getD 0,
    updatedAt := d.updatedAt.getD 0, userId := d.userId }

/-- Insert-or-overwrite into the `mediaBlobs` map (a JavaScript `Map.set`). -/
def setBlob (m : List (String × String)) (k v : String) : List (String × String) :=
  match m with
  | [] => [(k, v)]
  | (k', v') :: rest => if k' == k then (k, v) :: rest else (k', v') :: setBlob rest k v

/-- Map lookup. -/
def getBlob? (m : List (String × String)) (k : String) : Option String :=
  (m.find? (fun kv => kv.1 == k)).map (fun kv => kv.2)

/-- The blob-download loop of one exported document: one `fetching` progress
event per attachment that has a `storagePath`, a failed download merely
skipped. -/
def exportMediaLoop (env : FireEnv) (blobs : List (String × String)) :
    List MediaAttachment → List (String × String) × List MStatus
  | [] => (blobs, [])
  | a :: rest =>
    if a.storagePath = "" then exportMediaLoop env blobs rest
    else
      let blobs' := if env.blobOk a.storagePath
        then setBlob blobs a.id (env.blob a.storagePath) else blobs
      let r := exportMediaLoop env blobs' rest
      (r.1, .fetching :: r.2)

/-- The per-document export loop: blobs are fetched best-effort, the record
itself is always pushed, and a `fetching` progress event closes each record. -/
def exportLoop (env : FireEnv) (blobs : List (String × String)) :
    List FireDoc → List Memory × List (String × String) × List MStatus
  | [] => ([], blobs, [])
  | d :: ds =>
    let mem := docToMemory d
    let r1 := exportMediaLoop env blobs mem.media
    let r2 := exportLoop env r1.1 ds
    (mem :: r2.1, r2.2.1, r1.2 ++ .fetching :: r2.2.2)

/-- `exportFromFirebase`: an initial `fetching` event, the user's documents
queried (a query failure rejects the whole export), then the export loop. -/
def exportFromFirebase (env : FireEnv) (firebaseUserId : String) :
    Except Err (List Memory × List (String × String)) × List MStatus :=
  if ¬env.queryOk then (.error (.js "Failed to fetch memories from Firebase"), [.fetching])
  else
    let r := exportLoop env [] (env.docs.filter (fun d => d.userId == firebaseUserId))
    (.ok (r.1, r.2.1), .fetching :: r.2.2)

/-- A target `StorageProvider` as consumed by the migration service: each
operation as a transformer of the target's state `σ`. -/
structure Target (σ : Type) where
  init : σ → String → σ × Except Err Unit
  uploadMedia : σ → DFile → σ × Except Err MediaAttachment
  createMemory : σ → MemoryInput → σ × Except Err Memory
  getMemories : σ → σ × Except Err (List Memory)
  updateMemory : σ → String → MemUpdates → List DFile → σ × Except Err Memory

/-- `getMimeType`: MIME derived from the media type tag and the lower-cased
file extension. -/
def getMimeType (mediaType : MediaType) (fileName : String) : String :=
  let ext := strToLower (match afterLastDot fileName.data with
    | some r => String.mk r
    | none => fileName)
  match mediaType with
  | .image =>
    if ext = "png" then "image/png"
    else if ext = "gif" then "image/gif"
    else if ext = "webp" then "image/webp"
    else "image/jpeg"
  | .audio =>
    if ext = "mp3" then "audio/mpeg"
    else if ext = "wav" then "audio/wav"
    else if ext = "ogg" then "audio/ogg"
    else "audio/mpeg"
  | .video =>
    if ext = "mp4" then "video/mp4"
    else if ext = "webm" then "video/webm"
    else if ext = "mov" then "video/quicktime"
    else "video/mp4"

/-- The per-record media re-upload loop: only attachments whose blob was
fetched are attempted, and an upload failure is logged and skipped. -/
def importMediaLoop {σ : Type} (T : Target σ) (blobs : List (String × String)) :
    σ → List MediaAttachment → σ × List MediaAttachment
  | st, [] => (st, [])
  | st, a :: rest =>
    match getBlob? blobs a.id with
    | none => importMediaLoop T blobs st rest
    | some content =>
      let file : DFile :=
        { name := a.fileName, mimeType := getMimeType a.type a.fileName, data := content }
      let u := T.uploadMedia st file
      match u.2 with
      | .ok att =>
        let r := importMediaLoop T blobs u.1 rest
        (r.1, att :: r.2)
      | .error _ => importMediaLoop T blobs u.1 rest

/-- The per-record create block (one `try`): create the record with empty
media, look the fresh record up again by its text, and when new attachments
exist issue the (no-op) update; any failure inside is caught and the loop
continues. -/
def importOneRecord {σ : Type} (T : Target σ) (blobs : List (String × String))
    (st : σ) (mem : Memory) : σ :=
  let up := importMediaLoop T blobs st mem.media
  let cr := T.createMemory up.1 { text := mem.text, tags := mem.tags, mediaFiles := [] }
  match cr.2 with
  | .error _ => cr.1
  | .ok _ =>
    let gm := T.getMemories cr.1
    match gm.2 with
    | .error _ => gm.1
    | .ok all =>
      match all.find? (fun m => m.text == mem.text) with
      | none => gm.1
      | some found =>
        if up.2.length > 0 then (T.updateMemory gm.1 found.id MemUpdates.empty []).1
        else gm.1

/-- The import loop: one `uploading` progress event opens each record. -/
def importLoop {σ : Type} (T : Target σ) (blobs : List (String × String)) :
    σ → List Memory → σ × List MStatus
  | st, [] => (st, [])
  | st, mem :: rest =>
    let st1 := importOneRecord T blobs st mem
    let r := importLoop T blobs st1 rest
    (r.1, .uploading :: r.2)

/-- `importToNewPlatform`: initialize the target (a failure here escapes this
function), run the per-record loop with its partial-failure semantics, close
with a `complete` progress event. -/
def importToNewPlatform {σ : Type} (T : Target σ) (st : σ) (mems : List Memory)
    (blobs : List (String × String)) (newUserId : String) :
    σ × Except Err Unit × List MStatus :=
  let ini := T.init st newUserId
  match ini.2 with
  | .error e => (ini.1, .error e, [])
  | .ok _ =>
    let r := importLoop T blobs ini.1 mems
    (r.1, .ok (), r.2 ++ [.complete])

/-- The result record of `performFullMigration`. -/
structure MigResult where
  success : Bool
  migratedCount : Nat
  error : Option String
deriving Repr, DecidableEq

/-- The message carried by a rejection. -/
def Err.msg : Err → String
  | .storage _ m => m
  | .js m => m

/-- `performFullMigration`: `connecting` first, export (fatal on failure),
the empty collection short-circuits to `complete`, otherwise import; any
escaped rejection yields an `error` progress event and `success := false`.
The `migratedCount` of a successful run is the number of exported records,
independent of per-record import failures. -/
def performFullMigration {σ : Type} (env : FireEnv) (firebaseUserId : String)
    (T : Target σ) (st : σ) (newUserId : String) :
    σ × MigResult × List MStatus :=
  let ex := exportFromFirebase env firebaseUserId
  match ex.1 with
  | .error e =>
    (st, { success := false, migratedCount := 0, error := some e.msg },
     .connecting :: ex.2 ++ [.error])
  | .ok mb =>
    if mb.1.isEmpty then
      (st, { success := true, migratedCount := 0, error := none },
       .connecting :: ex.2 ++ [.complete])
    else
      let im := importToNewPlatform T st mb.1 mb.2 newUserId
      match im.2.1 with
      | .error e =>
        (im.1, { success := false, migratedCount := 0, error := some e.msg },
         .connecting :: ex.2 ++ im.2.2 ++ [.error])
      | .ok _ =>
        (im.1, { success := true, migratedCount := mb.1.length, error := none },
         .connecting :: ex.2 ++ im.2.2)

end MemoryKeeper

namespace MemoryKeeper

/-! ### Round-trip of the attachment serialization

`parse (stringify atts) = atts` for attachment arrays, the backbone of the
CloudKit media claims. -/

/-- Rebuilding a string from its own characters. -/
theorem strMkData (s : String) : String.mk s.data = s := by cases s; rfl

/-- Hexadecimal digits decode back to their value. -/
theorem hexVal_hexDigitChar {n : Nat} (h : n < 16) :
    hexVal (hexDigitChar n) = some n := by
  interval_cases n <;> decide

/-- A character below 32 that is not one of the named short escapes is
escaped as a four-digit hexadecimal sequence that decodes back to it. -/
theorem parseJChars_u (d1 d2 : Char) (X : List Char) :
    parseJChars ('\\' :: 'u' :: '0' :: '0' :: d1 :: d2 :: X) =
      (match hexVal d1, hexVal d2 with
       | some c2, some d =>
         (parseJChars X).map
           (fun pr => (Char.ofNat (4096 * 0 + 256 * 0 + 16 * c2 + d) :: pr.1, pr.2))
       | _, _ => none) := by
  cases h1 : hexVal d1 <;> cases h2 : hexVal d2 <;>
    simp [parseJChars, h1, h2, show hexVal '0' = some 0 from rfl]

/-- Unfolding of the parser at a head character that is neither a quote nor a
backslash nor a control character. -/
theorem parseJChars_lit (c : Char) (X : List Char) (h1 : ¬c = '"')
    (h2 : ¬c = '\\') (h8 : ¬c.toNat < 32) :
    parseJChars (c :: X) = (parseJChars X).map (fun pr => (c :: pr.1, pr.2)) := by
  rw [parseJChars.eq_def]
  split
  · simp_all
  · simp_all
  · simp_all
  · simp_all
  · rename_i xs c2 cs2 hn1 hn2 hn3 heq
    injection heq with e1 e2
    subst e1
    subst e2
    rw [if_neg h8]

/-- The escaped form of a character sequence parses back to it. -/
theorem parseJChars_escChars (s rest : List Char) :
    parseJChars (escChars s ++ '"' :: rest) = some (s, rest) := by
  induction s with
  | nil => exact rfl
  | cons c cs ih =>
    show parseJChars ((escChar c ++ escChars cs) ++ '"' :: rest) = _
    rw [List.append_assoc]
    by_cases h1 : c = '"'
    · subst h1
      rw [show escChar '"' = ['\\', '"'] from rfl]
      show (parseJChars (escChars cs ++ '"' :: rest)).map _ = _
      rw [ih]
      rfl
    by_cases h2 : c = '\\'
    · subst h2
      rw [show escChar '\\' = ['\\', '\\'] from rfl]
      show (parseJChars (escChars cs ++ '"' :: rest)).map _ = _
      rw [ih]
      rfl
    by_cases h3 : c = bsC
    · subst h3
      rw [show escChar bsC = ['\\', 'b'] from rfl]
      show (parseJChars (escChars cs ++ '"' :: rest)).map _ = _
      rw [ih]
      rfl
    by_cases h4 : c = tabC
    · subst h4
      rw [show escChar tabC = ['\\', 't'] from rfl]
      show (parseJChars (escChars cs ++ '"' :: rest)).map _ = _
      rw [ih]
      rfl
    by_cases h5 : c = nlC
    · subst h5
      rw [show escChar nlC = ['\\', 'n'] from rfl]
      show (parseJChars (escChars cs ++ '"' :: rest)).map _ = _
      rw [ih]
      rfl
    by_cases h6 : c = ffC
    · subst h6
      rw [show escChar ffC = ['\\', 'f'] from rfl]
      show (parseJChars (escChars cs ++ '"' :: rest)).map _ = _
      rw [ih]
      rfl
    by_cases h7 : c = crC
    · subst h7
      rw [show escChar crC = ['\\', 'r'] from rfl]
      show (parseJChars (escChars cs ++ '"' :: rest)).map _ = _
      rw [ih]
      rfl
    by_cases h8 : c.toNat < 32
    · rw [show escChar c =
          ['\\', 'u', '0', '0', hexDigitChar (c.toNat / 16), hexDigitChar (c.toNat % 16)] by
        simp [escChar, h1, h2, h3, h4, h5, h6, h7, h8]]
      rw [List.cons_append, List.cons_append, List.cons_append, List.cons_append,
        List.cons_append, List.cons_append, List.nil_append]
      rw [parseJChars_u]
      rw [hexVal_hexDigitChar (by omega), hexVal_hexDigitChar (by omega)]
      show (parseJChars (escChars cs ++ '"' :: rest)).map _ = _
      rw [ih]
      have hval : 4096 * 0 + 256 * 0 + 16 * (c.toNat / 16) + c.toNat % 16 = c.toNat := by
        omega
      show some (Char.ofNat (4096 * 0 + 256 * 0 + 16 * (c.toNat / 16) + c.toNat % 16) :: cs,
        rest) = _
      rw [hval, Char.ofNat_toNat]
    · rw [show escChar c = [c] by simp [escChar, h1, h2, h3, h4, h5, h6, h7, h8]]
      rw [List.cons_append, List.nil_append]
      rw [parseJChars_lit c _ h1 h2 h8, ih]
      rfl

end MemoryKeeper

namespace MemoryKeeper

/-- Object member lists whose values are all strings. -/
def strPairs (sps : List (String × String)) : List (String × Json) :=
  sps.map (fun kv => (kv.1, Json.str kv.2))

/-- Unfolding of `parseMembers` at a quoted key. -/
theorem parseMembers_quoteStep (f : Nat) (X : List Char) :
    parseMembers (f + 1) ('"' :: X) =
      (match parseJChars X with
       | some (key, rest1) =>
         (match skipWs rest1 with
          | ':' :: rest2 =>
            (match parseVal f rest2 with
             | some (v, rest3) =>
               (match skipWs rest3 with
                | ',' :: rest4 =>
                  (parseMembers f rest4).map (fun pr => ((String.mk key, v) :: pr.1, pr.2))
                | '\x7d' :: rest4 => some ([(String.mk key, v)], rest4)
                | _ => none)
             | none => none)
          | _ => none)
       | none => none) := rfl

/-- A serialized string value parses as a JSON value. -/
theorem parseVal_str {fuel : Nat} (hf : 1 ≤ fuel) (s : String) (rest : List Char) :
    parseVal fuel ('"' :: (escChars s.data ++ '"' :: rest)) = some (.str s, rest) := by
  obtain ⟨f, rfl⟩ : ∃ f, fuel = f + 1 := ⟨fuel - 1, by omega⟩
  show (parseJChars (escChars s.data ++ '"' :: rest)).map _ = _
  rw [parseJChars_escChars]
  show some (Json.str (String.mk s.data), rest) = _
  rw [strMkData]

/-- One string-valued member followed by the rest of an object body. -/
theorem parseMembers_member {f : Nat} (hf : 1 ≤ f) (k v : String) (Z : List Char) :
    parseMembers (f + 1)
        ('"' :: (escChars k.data ++ '"' :: (':' :: ('"' :: (escChars v.data ++ '"' :: Z))))) =
      (match skipWs Z with
       | ',' :: rest4 => (parseMembers f rest4).map (fun pr => ((k, Json.str v) :: pr.1, pr.2))
       | '\x7d' :: rest4 => some ([(k, Json.str v)], rest4)
       | _ => none) := by
  rw [parseMembers_quoteStep, parseJChars_escChars]
  show (match parseVal f ('"' :: (escChars v.data ++ '"' :: Z)) with
        | some (v', rest3) =>
          (match skipWs rest3 with
           | ',' :: rest4 =>
             (parseMembers f rest4).map
               (fun (pr : List (String × Json) × List Char) =>
                 ((String.mk k.data, v') :: pr.1, pr.2))
           | '\x7d' :: rest4 => some ([(String.mk k.data, v')], rest4)
           | _ => none)
        | none => none) = _
  rw [parseVal_str hf]

/-- A serialized all-string member list closed by a brace parses back to
itself. -/
theorem parseMembers_strPairs (sps : List (String × String)) :
    ∀ (fuel : Nat), sps.length + 1 ≤ fuel → ∀ (rest : List Char),
    parseMembers fuel (stringifyMembers (strPairs sps) ++ '\x7d' :: rest) =
      some (strPairs sps, rest) := by
  induction sps with
  | nil =>
    intro fuel hf rest
    obtain ⟨f, rfl⟩ : ∃ f, fuel = f + 1 := ⟨fuel - 1, by omega⟩
    exact rfl
  | cons kv sps' ih =>
    intro fuel hf rest
    obtain ⟨f, rfl⟩ : ∃ f, fuel = f + 1 := ⟨fuel - 1, by omega⟩
    cases sps' with
    | nil =>
      show parseMembers (f + 1)
          ((quoteStr kv.1 ++ ':' :: quoteStr kv.2) ++ '\x7d' :: rest) = _
      have harr : (quoteStr kv.1 ++ ':' :: quoteStr kv.2) ++ '\x7d' :: rest =
          '"' :: (escChars kv.1.data ++ '"' ::
            (':' :: ('"' :: (escChars kv.2.data ++ '"' :: ('\x7d' :: rest))))) := by
        simp [quoteStr]
      rw [harr, parseMembers_member (by simp at hf; omega)]
      exact rfl
    | cons kv2 sps'' =>
      show parseMembers (f + 1)
          ((quoteStr kv.1 ++ ':' :: quoteStr kv.2)
            ++ ',' :: stringifyMembers (strPairs (kv2 :: sps'')) ++ '\x7d' :: rest) = _
      have harr : (quoteStr kv.1 ++ ':' :: quoteStr kv.2)
            ++ ',' :: stringifyMembers (strPairs (kv2 :: sps'')) ++ '\x7d' :: rest =
          '"' :: (escChars kv.1.data ++ '"' ::
            (':' :: ('"' :: (escChars kv.2.data ++ '"' ::
              (',' :: (stringifyMembers (strPairs (kv2 :: sps'')) ++ '\x7d' :: rest)))))) := by
        simp [quoteStr]
      rw [harr, parseMembers_member (by simp at hf; omega)]
      show (parseMembers f
          (stringifyMembers (strPairs (kv2 :: sps'')) ++ '\x7d' :: rest)).map _ = _
      rw [ih f (by simp at hf ⊢; omega) rest]
      exact rfl

end MemoryKeeper

namespace MemoryKeeper

/-- The five members of a serialized attachment object. -/
def attPairs (a : MediaAttachment) : List (String × String) :=
  [("id", a.id), ("type", a.type.toTag), ("url", a.url),
   ("fileName", a.fileName), ("storagePath", a.storagePath)]

/-- The attachment object is the all-string object over its five members. -/
theorem attachmentToJson_strPairs (a : MediaAttachment) :
    attachmentToJson a = .obj (strPairs (attPairs a)) := rfl

/-- Unfolding of `parseVal` at an opening brace. -/
theorem parseVal_objStep (f : Nat) (X : List Char) :
    parseVal (f + 1) ('\x7b' :: X) =
      (parseMembers f X).map (fun pr => (Json.obj pr.1, pr.2)) := rfl

/-- Unfolding of `parseVal` at an opening bracket. -/
theorem parseVal_arrStep (f : Nat) (X : List Char) :
    parseVal (f + 1) ('[' :: X) =
      (parseElems f X).map (fun pr => (Json.arr pr.1, pr.2)) := rfl

/-- A serialized attachment object parses back to itself. -/
theorem parseVal_attachment {fuel : Nat} (hf : 8 ≤ fuel) (a : MediaAttachment)
    (rest : List Char) :
    parseVal fuel (stringifyVal (attachmentToJson a) ++ rest) =
      some (attachmentToJson a, rest) := by
  obtain ⟨f, rfl⟩ : ∃ f, fuel = f + 1 := ⟨fuel - 1, by omega⟩
  have harr : stringifyVal (attachmentToJson a) ++ rest =
      '\x7b' :: (stringifyMembers (strPairs (attPairs a)) ++ '\x7d' :: rest) := by
    rw [attachmentToJson_strPairs]
    show '\x7b' :: (stringifyMembers (strPairs (attPairs a)) ++ ['\x7d']) ++ rest = _
    simp
  rw [harr, parseVal_objStep,
    parseMembers_strPairs (attPairs a) f (by simp [attPairs]; omega) rest]
  rfl

/-- Unfolding of `parseElems` at an opening brace (an array element that is an
object). -/
theorem parseElems_objStep (f : Nat) (X : List Char) :
    parseElems (f + 1) ('\x7b' :: X) =
      (match parseVal f ('\x7b' :: X) with
       | some (v, rest1) =>
         (match skipWs rest1 with
          | ',' :: rest2 =>
            (parseElems f rest2).map
              (fun (pr : List Json × List Char) => (v :: pr.1, pr.2))
          | ']' :: rest2 => some ([v], rest2)
          | _ => none)
       | none => none) := rfl

/-- The serialized form of an attachment object starts with a brace. -/
theorem stringify_attachment_cons (a : MediaAttachment) (rest : List Char) :
    stringifyVal (attachmentToJson a) ++ rest =
      '\x7b' :: (stringifyMembers (strPairs (attPairs a)) ++ '\x7d' :: rest) := by
  rw [attachmentToJson_strPairs]
  show '\x7b' :: (stringifyMembers (strPairs (attPairs a)) ++ ['\x7d']) ++ rest = _
  simp

/-- A serialized attachment list closed by a bracket parses back to itself. -/
theorem parseElems_atts (atts : List MediaAttachment) :
    ∀ (fuel : Nat), atts.length + 8 ≤ fuel → ∀ (rest : List Char),
    parseElems fuel (stringifyElems (atts.map attachmentToJson) ++ ']' :: rest) =
      some (atts.map attachmentToJson, rest) := by
  induction atts with
  | nil =>
    intro fuel hf rest
    obtain ⟨f, rfl⟩ : ∃ f, fuel = f + 1 := ⟨fuel - 1, by omega⟩
    exact rfl
  | cons a atts' ih =>
    intro fuel hf rest
    obtain ⟨f, rfl⟩ : ∃ f, fuel = f + 1 := ⟨fuel - 1, by omega⟩
    simp only [List.length_cons] at hf
    cases atts' with
    | nil =>
      show parseElems (f + 1) (stringifyVal (attachmentToJson a) ++ ']' :: rest) = _
      rw [stringify_attachment_cons, parseElems_objStep,
        show ('\x7b' :: (stringifyMembers (strPairs (attPairs a)) ++ '\x7d' :: (']' :: rest)))
            = stringifyVal (attachmentToJson a) ++ ']' :: rest from
          (stringify_attachment_cons a (']' :: rest)).symm,
        parseVal_attachment (by omega)]
      exact rfl
    | cons b atts'' =>
      show parseElems (f + 1)
          ((stringifyVal (attachmentToJson a)
            ++ ',' :: stringifyElems ((b :: atts'').map attachmentToJson)) ++ ']' :: rest) = _
      have harr : (stringifyVal (attachmentToJson a)
            ++ ',' :: stringifyElems ((b :: atts'').map attachmentToJson)) ++ ']' :: rest =
          stringifyVal (attachmentToJson a)
            ++ ',' :: (stringifyElems ((b :: atts'').map attachmentToJson) ++ ']' :: rest) := by
        simp
      rw [harr, stringify_attachment_cons, parseElems_objStep,
        show ('\x7b' :: (stringifyMembers (strPairs (attPairs a)) ++ '\x7d' ::
              (',' :: (stringifyElems ((b :: atts'').map attachmentToJson) ++ ']' :: rest))))
            = stringifyVal (attachmentToJson a)
              ++ ',' :: (stringifyElems ((b :: atts'').map attachmentToJson) ++ ']' :: rest) from
          (stringify_attachment_cons a _).symm,
        parseVal_attachment (by omega)]
      show (parseElems f
          (stringifyElems ((b :: atts'').map attachmentToJson) ++ ']' :: rest)).map _ = _
      rw [ih f (by simp only [List.length_cons] at hf ⊢; omega) rest]
      exact rfl

end MemoryKeeper

namespace MemoryKeeper

/-- A serialized attachment object is at least nine characters long. -/
theorem attachment_len (a : MediaAttachment) :
    9 ≤ (stringifyVal (attachmentToJson a)).length := by
  rw [attachmentToJson_strPairs]
  simp [attPairs, strPairs, stringifyMembers, stringifyVal, quoteStr, List.length_append]
  omega

/-- Length lower bound for a serialized non-empty attachment list. -/
theorem elems_len (a : MediaAttachment) (atts : List MediaAttachment) :
    (a :: atts).length + 7 ≤ (stringifyElems ((a :: atts).map attachmentToJson)).length := by
  induction atts generalizing a with
  | nil =>
    have := attachment_len a
    simpa [stringifyElems] using by omega
  | cons b atts' ih =>
    have h1 := attachment_len a
    have h2 := ih b
    show (a :: b :: atts').length + 7 ≤
      (stringifyVal (attachmentToJson a)
        ++ ',' :: stringifyElems ((b :: atts').map attachmentToJson)).length
    simp only [List.length_append, List.length_cons] at h2 ⊢
    omega

/-- The central round-trip: the serialized attachment array parses back to
exactly the array of attachment objects, for every attachment list. -/
theorem jsonParse_serializeAttachments (atts : List MediaAttachment) :
    jsonParse (serializeAttachments atts) =
      some (.arr (atts.map attachmentToJson)) := by
  cases atts with
  | nil => rfl
  | cons a atts' =>
    unfold jsonParse
    have hdata : (serializeAttachments (a :: atts')).data
        = '[' :: (stringifyElems ((a :: atts').map attachmentToJson) ++ ']' :: []) := rfl
    rw [hdata]
    have hfeq : ('[' :: (stringifyElems ((a :: atts').map attachmentToJson)
        ++ ']' :: [])).length + 2
        = (('[' :: (stringifyElems ((a :: atts').map attachmentToJson)
            ++ ']' :: [])).length + 1) + 1 := by omega
    rw [hfeq, parseVal_arrStep]
    have hfuel : (a :: atts').length + 8 ≤
        ('[' :: (stringifyElems ((a :: atts').map attachmentToJson)
          ++ ']' :: [])).length + 1 := by
      have := elems_len a atts'
      simp only [List.length_cons, List.length_append] at this ⊢
      omega
    rw [parseElems_atts (a :: atts') _ hfuel []]
    rfl

end MemoryKeeper

namespace MemoryKeeper

/-- `parsedMediaField` on a serialized attachment array is that array. -/
theorem parsedMediaField_serialize (atts : List MediaAttachment) :
    CloudKit.parsedMediaField (serializeAttachments atts) =
      .arr (atts.map attachmentToJson) := by
  have hne : ¬serializeAttachments atts = "" := by
    intro h
    have hd := congrArg String.data h
    rw [show (serializeAttachments atts).data
        = '[' :: (stringifyElems (atts.map attachmentToJson) ++ [']']) from rfl] at hd
    exact List.noConfusion hd
  unfold CloudKit.parsedMediaField
  rw [if_neg hne, jsonParse_serializeAttachments]

namespace GoogleDrive

/-- Closed form of `uploadMedia`. -/
theorem driveUploadMedia_eq (env : DriveEnv) (s : DriveState) (f : DFile) :
    uploadMedia env s f =
      if ¬s.initialized = true then (s, [], .error notInitErr)
      else if ¬env.authOk = true then
        (s, [], .error (.storage .unknown "Failed to upload media"))
      else if env.uploadOk f then
        ({ s with fresh := s.fresh + 1 + 1 }, [.netUploadMedia], .ok
          { id := uuidStr s.fresh, type := mediaTypeOfMime f.mimeType,
            url := "https://www.googleapis.com/drive/v3/files/"
              ++ driveSrvId (s.fresh + 1) ++ "?alt=media",
            fileName := f.name, storagePath := driveSrvId (s.fresh + 1) })
      else ({ s with fresh := s.fresh + 1 }, [.netUploadMedia],
        .error (.storage .unknown "Failed to upload media")) := rfl

/-- `uploadMedia` touches only the fresh-identifier counter. -/
theorem driveUploadMedia_frame (env : DriveEnv) (s : DriveState) (f : DFile) :
    (uploadMedia env s f).1.memories = s.memories ∧
    (uploadMedia env s f).1.initialized = s.initialized ∧
    (uploadMedia env s f).1.userId = s.userId ∧
    (uploadMedia env s f).1.dateCalls = s.dateCalls ∧
    (uploadMedia env s f).1.memoriesFileId = s.memoriesFileId := by
  rw [driveUploadMedia_eq]
  split
  · exact ⟨rfl, rfl, rfl, rfl, rfl⟩
  split
  · exact ⟨rfl, rfl, rfl, rfl, rfl⟩
  split <;> exact ⟨rfl, rfl, rfl, rfl, rfl⟩

/-- A successful upload returns the attachment of the supplied file. -/
theorem driveUploadMedia_ok (env : DriveEnv) (s : DriveState) (f : DFile)
    {s1 : DriveState} {effs : List Eff} {a : MediaAttachment}
    (h : uploadMedia env s f = (s1, effs, .ok a)) :
    a.fileName = f.name ∧ a.type = mediaTypeOfMime f.mimeType := by
  rw [driveUploadMedia_eq] at h
  split at h
  · simp at h
  split at h
  · simp at h
  split at h
  · simp only [Prod.mk.injEq, Except.ok.injEq] at h
    obtain ⟨h1, h2, h3⟩ := h
    refine ⟨?_, ?_⟩
    · rw [← h3]
    · rw [← h3]
  · exact absurd h (by simp)

/-- The upload loop touches only the fresh-identifier counter, and a
successful run returns one attachment per file, in order, each carrying its
file's name and MIME classification. -/
theorem uploadAll_spec (env : DriveEnv) :
    ∀ (fs : List DFile) (s : DriveState),
    (uploadAll env s fs).1.memories = s.memories ∧
    (uploadAll env s fs).1.initialized = s.initialized ∧
    (uploadAll env s fs).1.userId = s.userId ∧
    (uploadAll env s fs).1.dateCalls = s.dateCalls ∧
    (uploadAll env s fs).1.memoriesFileId = s.memoriesFileId ∧
    ∀ {s1 : DriveState} {effs : List Eff} {atts : List MediaAttachment},
      uploadAll env s fs = (s1, effs, .ok atts) →
      List.Forall₂ (fun (a : MediaAttachment) (f : DFile) =>
        a.fileName = f.name ∧ a.type = mediaTypeOfMime f.mimeType) atts fs := by
  intro fs
  induction fs with
  | nil =>
    intro s
    refine ⟨rfl, rfl, rfl, rfl, rfl, ?_⟩
    intro s1 effs atts h
    simp only [uploadAll, Prod.mk.injEq, Except.ok.injEq] at h
    obtain ⟨h1, h2, h3⟩ := h
    subst h3
    exact List.Forall₂.nil
  | cons f fs' ih =>
    intro s
    have hfr := driveUploadMedia_frame env s f
    rcases hrec : uploadMedia env s f with ⟨sa, ea, ra⟩
    rw [hrec] at hfr
    cases ra with
    | error e =>
      constructor
      · simp only [uploadAll, hrec]
        exact hfr.1
      refine ⟨?_, ?_, ?_, ?_, ?_⟩
      · simp only [uploadAll, hrec]; exact hfr.2.1
      · simp only [uploadAll, hrec]; exact hfr.2.2.1
      · simp only [uploadAll, hrec]; exact hfr.2.2.2.1
      · simp only [uploadAll, hrec]; exact hfr.2.2.2.2
      · intro s1 effs atts h
        simp only [uploadAll, hrec] at h
        simp at h
    | ok a =>
      have ihs := ih sa
      rcases hrec2 : uploadAll env sa fs' with ⟨sb, eb, rb⟩
      rw [hrec2] at ihs
      cases rb with
      | error e =>
        refine ⟨?_, ?_, ?_, ?_, ?_, ?_⟩
        · simp only [uploadAll, hrec, hrec2]
          exact ihs.1.trans hfr.1
        · simp only [uploadAll, hrec, hrec2]
          exact ihs.2.1.trans hfr.2.1
        · simp only [uploadAll, hrec, hrec2]
          exact ihs.2.2.1.trans hfr.2.2.1
        · simp only [uploadAll, hrec, hrec2]
          exact ihs.2.2.2.1.trans hfr.2.2.2.1
        · simp only [uploadAll, hrec, hrec2]
          exact ihs.2.2.2.2.1.trans hfr.2.2.2.2
        · intro s1 effs atts h
          simp only [uploadAll, hrec, hrec2] at h
          simp at h
      | ok atts' =>
        refine ⟨?_, ?_, ?_, ?_, ?_, ?_⟩
        · simp only [uploadAll, hrec, hrec2]
          exact ihs.1.trans hfr.1
        · simp only [uploadAll, hrec, hrec2]
          exact ihs.2.1.trans hfr.2.1
        · simp only [uploadAll, hrec, hrec2]
          exact ihs.2.2.1.trans hfr.2.2.1
        · simp only [uploadAll, hrec, hrec2]
          exact ihs.2.2.2.1.trans hfr.2.2.2.1
        · simp only [uploadAll, hrec, hrec2]
          exact ihs.2.2.2.2.1.trans hfr.2.2.2.2
        · intro s1 effs atts h
          simp only [uploadAll, hrec, hrec2, Prod.mk.injEq, Except.ok.injEq] at h
          obtain ⟨h1, h2, h3⟩ := h
          subst h3
          exact List.Forall₂.cons (driveUploadMedia_ok env s f hrec) (ihs.2.2.2.2.2 rfl)

end GoogleDrive

end MemoryKeeper

namespace MemoryKeeper

namespace GoogleDrive

/-- Inversion of a successful `createMemory`: the created memory is prepended
to the cache, carries the input's text and tags, one attachment per input
file in order, both timestamps from the single clock reading of the call, and
the provider's user id. -/
theorem driveCreateMemory_ok (env : DriveEnv) (s : DriveState) (input : MemoryInput)
    {s' : DriveState} {effs : List Eff} {m : Memory}
    (h : createMemory env s input = (s', effs, .ok m)) :
    s'.memories = m :: s.memories ∧
    m.text = input.text ∧
    m.tags = input.tags ∧
    m.createdAt = env.time s.dateCalls ∧
    m.updatedAt = env.time s.dateCalls ∧
    m.userId = s.userId.getD "" ∧
    List.Forall₂ (fun (a : MediaAttachment) (f : DFile) =>
      a.fileName = f.name ∧ a.type = mediaTypeOfMime f.mimeType) m.media input.mediaFiles ∧
    s'.initialized = s.initialized ∧
    s'.userId = s.userId ∧
    s'.memoriesFileId = s.memoriesFileId ∧
    s'.dateCalls = s.dateCalls + 1 := by
  unfold createMemory at h
  split at h
  · simp at h
  split at h
  · exact absurd h (by simp)
  rename_i x s1 e1 atts heq
  have hall := uploadAll_spec env input.mediaFiles s
  rw [heq] at hall
  dsimp only at hall
  dsimp only at h
  split at h
  · simp only [Prod.mk.injEq, Except.ok.injEq] at h
    obtain ⟨h1, h2, h3⟩ := h
    refine ⟨?_, ?_, ?_, ?_, ?_, ?_, ?_, ?_, ?_, ?_, ?_⟩
    · rw [← h1, ← h3]
      simp [hall.1]
    · rw [← h3]
    · rw [← h3]
    · rw [← h3]
      simp [hall.2.2.2.1]
    · rw [← h3]
      simp [hall.2.2.2.1]
    · rw [← h3]
    · rw [← h3]
      exact hall.2.2.2.2.2 rfl
    · rw [← h1]
      exact hall.2.1
    · rw [← h1]
      exact hall.2.2.1
    · rw [← h1]
      exact hall.2.2.2.2.1
    · rw [← h1]
      simp [hall.2.2.2.1]
  · exact absurd h (by simp)

/-- Inversion of a successful `updateMemory` on a cached memory: the result
keeps every field of the existing memory that the partial update does not
name, appends exactly the uploaded attachments of the new files to the
existing media, refreshes `updatedAt` from the clock reading of this call,
and stores the result by first-match replacement in the cache. -/
theorem driveUpdateMemory_ok (env : DriveEnv) (s : DriveState) (i : String)
    (updates : MemUpdates) (files : List DFile)
    {existing : Memory} (hfind : s.memories.find? (fun x => x.id == i) = some existing)
    {s' : DriveState} {effs : List Eff} {m' : Memory}
    (h : updateMemory env s i updates files = (s', effs, .ok m')) :
    (∃ atts, List.Forall₂ (fun (a : MediaAttachment) (f : DFile) =>
        a.fileName = f.name ∧ a.type = mediaTypeOfMime f.mimeType) atts files ∧
      m' = { existing with
        text := updates.text.getD existing.text,
        tags := updates.tags.getD existing.tags,
        media := existing.media ++ atts,
        updatedAt := env.time s.dateCalls }) ∧
    s'.memories = replaceById s.memories i m' ∧
    s'.initialized = s.initialized ∧
    s'.userId = s.userId ∧
    s'.memoriesFileId = s.memoriesFileId ∧
    s'.dateCalls = s.dateCalls + 1 := by
  unfold updateMemory at h
  split at h
  · simp at h
  rw [hfind] at h
  split at h
  · exact absurd h (by simp)
  rename_i ex2 heq2
  injection heq2 with hex
  subst hex
  split at h
  · exact absurd h (by simp)
  rename_i x s1 e1 atts heq
  have hall := uploadAll_spec env files s
  rw [heq] at hall
  dsimp only at hall
  dsimp only at h
  split at h
  · simp only [Prod.mk.injEq, Except.ok.injEq] at h
    obtain ⟨h1, h2, h3⟩ := h
    refine ⟨⟨atts, hall.2.2.2.2.2 rfl, ?_⟩, ?_, ?_, ?_, ?_, ?_⟩
    · rw [← h3]
      simp [hall.2.2.2.1]
    · rw [← h1, ← h3]
      simp [hall.1]
    · rw [← h1]
      exact hall.2.1
    · rw [← h1]
      exact hall.2.2.1
    · rw [← h1]
      exact hall.2.2.2.2.1
    · rw [← h1]
      simp [hall.2.2.2.1]
  · exact absurd h (by simp)

end GoogleDrive

end MemoryKeeper

namespace MemoryKeeper

/-- First-match replacement preserves lookup: after replacing the first entry
with a given id, looking that id up yields the replacement. -/
theorem find?_replaceById {l : List Memory} {i : String} {m m' : Memory}
    (hf : l.find? (fun x => x.id == i) = some m) (hid : m'.id = i) :
    (replaceById l i m').find? (fun x => x.id == i) = some m' := by
  induction l with
  | nil => simp at hf
  | cons a t ih =>
    by_cases ha : a.id = i
    · simp [replaceById, ha, hid]
    · rw [List.find?_cons_of_neg _ (by simp [ha])] at hf
      simp only [replaceById, if_neg (by simp [ha] : ¬(a.id == i) = true)]
      rw [List.find?_cons_of_neg _ (by simp [ha])]
      exact ih hf

/-- Replace-by-map preserves lookup in the same way. -/
theorem find?_mapReplace {l : List CKMemory} {i : String} {m mNew : CKMemory}
    (hf : l.find? (fun x => x.id == i) = some m) (hid : mNew.id = i) :
    (l.map (fun x => if x.id == i then mNew else x)).find?
      (fun x => x.id == i) = some mNew := by
  induction l with
  | nil => simp at hf
  | cons a t ih =>
    by_cases ha : a.id = i
    · simp [ha, hid]
    · rw [List.find?_cons_of_neg _ (by simp [ha])] at hf
      simp only [List.map_cons, if_neg (by simp [ha] : ¬(a.id == i) = true)]
      rw [List.find?_cons_of_neg _ (by simp [ha])]
      exact ih hf

/-- Record replacement preserves lookup. -/
theorem find?_replaceRecord {l : List CKRecordS} {rid : String} {r r' : CKRecordS}
    (hf : l.find? (fun x => x.recordName == rid) = some r) (hid : r'.recordName = rid) :
    (replaceRecord l rid r').find? (fun x => x.recordName == rid) = some r' := by
  induction l with
  | nil => simp at hf
  | cons a t ih =>
    by_cases ha : a.recordName = rid
    · simp [replaceRecord, ha, hid]
    · rw [List.find?_cons_of_neg _ (by simp [ha])] at hf
      simp only [replaceRecord, if_neg (by simp [ha] : ¬(a.recordName == rid) = true)]
      rw [List.find?_cons_of_neg _ (by simp [ha])]
      exact ih hf

namespace CloudKitNative

/-- Closed form of the native `saveMemory`. -/
theorem saveMemory_eq (env : CKEnv) (s : CKState) (text : String)
    (tags : List String) (mj : String) :
    saveMemory env s text tags mj =
      (if env.saveOk then
        ({ s with
           fresh := s.fresh + 1,
           dateCalls := s.dateCalls + 2,
           records := s.records ++ [{ recordName := uuidStr s.fresh,
                                      text := text,
                                      tags := tags,
                                      media := mj,
                                      createdAt := env.time s.dateCalls,
                                      updatedAt := env.time (s.dateCalls + 1) }] },
         [.ckSaveRecord],
         .ok { recordName := uuidStr s.fresh,
               text := text,
               tags := tags,
               media := mj,
               createdAt := env.time s.dateCalls,
               updatedAt := env.time (s.dateCalls + 1) })
      else
        ({ s with fresh := s.fresh + 1, dateCalls := s.dateCalls + 2 },
         [.ckSaveRecord], .error (.js "Failed to save memory"))) := rfl

/-- Inversion of a successful native `updateMemory` when the record exists:
exactly the supplied fields are overwritten, `updatedAt` is refreshed, and
the record is stored by first-match replacement. -/
theorem nativeUpdateMemory_ok (env : CKEnv) (s : CKState) (rid : String)
    (text : Option String) (tags : Option (List String)) (media : Option String)
    {rec0 : CKRecordS} (hfind : s.records.find? (fun r => r.recordName == rid) = some rec0)
    {s' : CKState} {effs : List Eff} {rec1 : CKRecordS}
    (h : updateMemory env s rid text tags media = (s', effs, .ok rec1)) :
    rec1 = { rec0 with
             text := text.getD rec0.text,
             tags := tags.getD rec0.tags,
             media := media.getD rec0.media,
             updatedAt := env.time s.dateCalls } ∧
    s'.records = replaceRecord s.records rid rec1 ∧
    s'.memories = s.memories ∧
    s'.userId = s.userId ∧
    s'.initialized = s.initialized ∧
    s'.dateCalls = s.dateCalls + 1 ∧
    s'.fresh = s.fresh := by
  unfold updateMemory at h
  split at h
  · simp at h
  rw [hfind] at h
  split at h
  · exact absurd h (by simp)
  rename_i rec2 heq2
  injection heq2 with hrec
  subst hrec
  split at h
  · simp only [Prod.mk.injEq, Except.ok.injEq] at h
    obtain ⟨h1, h2, h3⟩ := h
    refine ⟨h3.symm, ?_, ?_, ?_, ?_, ?_, ?_⟩
    · rw [← h1, ← h3]
    · rw [← h1]
    · rw [← h1]
    · rw [← h1]
    · rw [← h1]
    · rw [← h1]
  · exact absurd h (by simp)

end CloudKitNative

end MemoryKeeper

namespace MemoryKeeper

namespace CloudKit

/-- Closed form of the provider `uploadMedia`. -/
theorem ckUploadMedia_eq (env : CKEnv) (s : CKState) (file : DFile) :
    uploadMedia env s file =
      (if ¬s.initialized = true then (s, [], .error notInitErr)
      else if env.uploadOk file then
        ({ s with fresh := s.fresh + 1 }, [.ckUploadMedia], .ok
          { id := uuidStr s.fresh,
            type := mediaTypeOfMime file.mimeType,
            url := "icloud://Documents/media/" ++ uuidStr s.fresh ++ "."
              ++ CloudKitNative.pathExt file.name,
            fileName := file.name,
            storagePath := "media/" ++ uuidStr s.fresh ++ "."
              ++ CloudKitNative.pathExt file.name })
      else ({ s with fresh := s.fresh + 1 }, [.ckUploadMedia],
        .error (.storage .unknown "Failed to upload media"))) := by
  unfold uploadMedia CloudKitNative.uploadMedia
  split
  · rfl
  split <;> rfl

/-- Provider `uploadMedia` touches only the fresh counter. -/
theorem ckUploadMedia_frame (env : CKEnv) (s : CKState) (f : DFile) :
    (uploadMedia env s f).1.memories = s.memories ∧
    (uploadMedia env s f).1.records = s.records ∧
    (uploadMedia env s f).1.initialized = s.initialized ∧
    (uploadMedia env s f).1.userId = s.userId ∧
    (uploadMedia env s f).1.dateCalls = s.dateCalls := by
  rw [ckUploadMedia_eq]
  split
  · exact ⟨rfl, rfl, rfl, rfl, rfl⟩
  split <;> exact ⟨rfl, rfl, rfl, rfl, rfl⟩

/-- A successful provider upload returns the attachment of the supplied
file. -/
theorem ckUploadMedia_ok (env : CKEnv) (s : CKState) (f : DFile)
    {s1 : CKState} {effs : List Eff} {a : MediaAttachment}
    (h : uploadMedia env s f = (s1, effs, .ok a)) :
    a.fileName = f.name ∧ a.type = mediaTypeOfMime f.mimeType := by
  rw [ckUploadMedia_eq] at h
  split at h
  · simp at h
  split at h
  · simp only [Prod.mk.injEq, Except.ok.injEq] at h
    obtain ⟨h1, h2, h3⟩ := h
    refine ⟨?_, ?_⟩
    · rw [← h3]
    · rw [← h3]
  · simp at h

/-- The upload-and-push loop touches only the fresh counter. -/
theorem uploadPush_frame (env : CKEnv) :
    ∀ (fs : List DFile) (s : CKState) (acc : Json),
    (uploadPush env s acc fs).1.memories = s.memories ∧
    (uploadPush env s acc fs).1.records = s.records ∧
    (uploadPush env s acc fs).1.initialized = s.initialized ∧
    (uploadPush env s acc fs).1.userId = s.userId ∧
    (uploadPush env s acc fs).1.dateCalls = s.dateCalls := by
  intro fs
  induction fs with
  | nil => intro s acc; exact ⟨rfl, rfl, rfl, rfl, rfl⟩
  | cons f fs' ih =>
    intro s acc
    have hfr := ckUploadMedia_frame env s f
    rcases hu : uploadMedia env s f with ⟨sa, ea, ra⟩
    rw [hu] at hfr
    cases ra with
    | error e =>
      simp only [uploadPush, hu]
      exact hfr
    | ok a =>
      cases acc with
      | arr l =>
        have ihs := ih sa (.arr (l ++ [attachmentToJson a]))
        simp only [uploadPush, hu]
        exact ⟨ihs.1.trans hfr.1, ihs.2.1.trans hfr.2.1, ihs.2.2.1.trans hfr.2.2.1,
          ihs.2.2.2.1.trans hfr.2.2.2.1, ihs.2.2.2.2.trans hfr.2.2.2.2⟩
      | null => simp only [uploadPush, hu]; exact hfr
      | bool b => simp only [uploadPush, hu]; exact hfr
      | num lex => simp only [uploadPush, hu]; exact hfr
      | str st => simp only [uploadPush, hu]; exact hfr
      | obj kvs => simp only [uploadPush, hu]; exact hfr

/-- A successful upload-and-push over an array base returns the base extended
by one attachment object per file, in order. -/
theorem uploadPush_ok (env : CKEnv) :
    ∀ (fs : List DFile) (s : CKState) (l : List Json)
      {s1 : CKState} {effs : List Eff} {v : Json},
    uploadPush env s (.arr l) fs = (s1, effs, .ok v) →
    ∃ atts, v = .arr (l ++ atts.map attachmentToJson) ∧
      List.Forall₂ (fun (a : MediaAttachment) (f : DFile) =>
        a.fileName = f.name ∧ a.type = mediaTypeOfMime f.mimeType) atts fs := by
  intro fs
  induction fs with
  | nil =>
    intro s l s1 effs v h
    simp only [uploadPush, Prod.mk.injEq, Except.ok.injEq] at h
    obtain ⟨h1, h2, h3⟩ := h
    exact ⟨[], by simp [← h3], List.Forall₂.nil⟩
  | cons f fs' ih =>
    intro s l s1 effs v h
    rw [show uploadPush env s (.arr l) (f :: fs') =
        (match uploadMedia env s f with
         | (sa, ea, .error e) => (sa, ea, .error e)
         | (sa, ea, .ok a) =>
           let r := uploadPush env sa (.arr (l ++ [attachmentToJson a])) fs'
           (r.1, ea ++ r.2.1, r.2.2)) from rfl] at h
    rcases hu : uploadMedia env s f with ⟨sa, ea, ra⟩
    rw [hu] at h
    cases ra with
    | error e => simp at h
    | ok a =>
      dsimp only at h
      simp only [Prod.mk.injEq] at h
      obtain ⟨h1, h2, h3⟩ := h
      rcases hrec : uploadPush env sa (.arr (l ++ [attachmentToJson a])) fs' with ⟨sb, eb, rb⟩
      rw [hrec] at h3
      obtain ⟨atts', hv, hfa⟩ := ih sa (l ++ [attachmentToJson a]) (by
        dsimp only at h3
        rw [hrec, h3])
      refine ⟨a :: atts', ?_, List.Forall₂.cons (ckUploadMedia_ok env s f hu) hfa⟩
      rw [hv]
      simp

end CloudKit

end MemoryKeeper

namespace MemoryKeeper

namespace CloudKit

/-- Inversion of a successful CloudKit `createMemory`: the converted record is
prepended to the cache; its text and tags are the input's; its media is the
parsed round-trip of the serialized uploaded attachments, one per input file
in order; `createdAt` and `updatedAt` are two consecutive clock readings. -/
theorem ckCreateMemory_ok (env : CKEnv) (s : CKState) (input : MemoryInput)
    {s' : CKState} {effs : List Eff} {m : CKMemory}
    (h : createMemory env s input = (s', effs, .ok m)) :
    s'.memories = m :: s.memories ∧
    m.text = input.text ∧
    m.tags = input.tags ∧
    (∃ atts, m.media = .arr (atts.map attachmentToJson) ∧
      List.Forall₂ (fun (a : MediaAttachment) (f : DFile) =>
        a.fileName = f.name ∧ a.type = mediaTypeOfMime f.mimeType) atts input.mediaFiles) ∧
    m.createdAt = env.time s.dateCalls ∧
    m.updatedAt = env.time (s.dateCalls + 1) ∧
    m.userId = s.userId.getD "" ∧
    s'.initialized = s.initialized ∧
    s'.userId = s.userId := by
  have hfr := uploadPush_frame env input.mediaFiles s (.arr [])
  unfold createMemory at h
  split at h
  · simp at h
  dsimp only at h
  split at h
  · exact absurd h (by simp)
  rename_i mediaVal hup
  rcases hpush : uploadPush env s (.arr []) input.mediaFiles with ⟨sa, ea, ra⟩
  rw [hpush] at hfr hup
  dsimp only at hfr hup
  subst hup
  obtain ⟨atts, hv, hfa⟩ := uploadPush_ok env input.mediaFiles s [] (by rw [hpush])
  rw [hpush] at h
  dsimp only at h
  split at h
  · exact absurd h (by simp)
  rename_i rec0 hsv
  rw [CloudKitNative.saveMemory_eq] at hsv
  split at hsv
  · rename_i hok
    dsimp only at hsv
    injection hsv with hrec
    subst hrec
    rw [CloudKitNative.saveMemory_eq, if_pos hok] at h
    dsimp only at h
    simp only [Prod.mk.injEq, Except.ok.injEq] at h
    obtain ⟨h1, h2, h3⟩ := h
    refine ⟨?_, ?_, ?_, ⟨atts, ?_, hfa⟩, ?_, ?_, ?_, ?_, ?_⟩
    · rw [← h1, ← h3]
      simp [recordToMemory, hfr.1]
    · rw [← h3]
      rfl
    · rw [← h3]
      rfl
    · rw [← h3]
      show parsedMediaField (jsonStringify mediaVal) = _
      rw [hv]
      simp only [List.nil_append]
      exact parsedMediaField_serialize atts
    · rw [← h3]
      show env.time sa.dateCalls = _
      rw [hfr.2.2.2.2]
    · rw [← h3]
      show env.time (sa.dateCalls + 1) = _
      rw [hfr.2.2.2.2]
    · rw [← h3]
      show sa.userId.getD "" = _
      rw [hfr.2.2.2.1]
    · rw [← h1]
      exact hfr.2.2.1
    · rw [← h1]
      exact hfr.2.2.2.1
  · simp at hsv

end CloudKit

end MemoryKeeper

namespace MemoryKeeper

/-- Concatenating attachment lists before serializing. -/
theorem serializeAttachments_append (atts0 atts : List MediaAttachment) :
    jsonStringify (.arr (atts0.map attachmentToJson ++ atts.map attachmentToJson)) =
      serializeAttachments (atts0 ++ atts) := by
  unfold serializeAttachments
  rw [List.map_append]

namespace CloudKit

/-- Inversion of a successful CloudKit `updateMemory` on a memory that is in
the cache with a well-formed attachment-array media value and whose record
exists in the zone: the supplied fields overwrite the record, new uploads are
appended to the cached media, `updatedAt` is refreshed, and both the cache
and the zone are updated by replacement. -/
theorem ckUpdateMemory_ok (env : CKEnv) (s : CKState) (i : String)
    (updates : MemUpdates) (files : List DFile)
    {m0 : CKMemory} (hfindm : s.memories.find? (fun x => x.id == i) = some m0)
    {atts0 : List MediaAttachment} (hmedia : m0.media = .arr (atts0.map attachmentToJson))
    {rec0 : CKRecordS} (hfindr : s.records.find? (fun r => r.recordName == i) = some rec0)
    {s' : CKState} {effs : List Eff} {m' : CKMemory}
    (h : updateMemory env s i updates files = (s', effs, .ok m')) :
    ∃ atts, List.Forall₂ (fun (a : MediaAttachment) (f : DFile) =>
        a.fileName = f.name ∧ a.type = mediaTypeOfMime f.mimeType) atts files ∧
      m' = { id := rec0.recordName,
             text := updates.text.getD rec0.text,
             tags := updates.tags.getD rec0.tags,
             media := .arr ((atts0 ++ atts).map attachmentToJson),
             createdAt := rec0.createdAt,
             updatedAt := env.time s.dateCalls,
             userId := s.userId.getD "" } ∧
      s'.memories = s.memories.map (fun x => if x.id == i then m' else x) ∧
      s'.records = replaceRecord s.records i
        { rec0 with
          text := updates.text.getD rec0.text,
          tags := updates.tags.getD rec0.tags,
          media := serializeAttachments (atts0 ++ atts),
          updatedAt := env.time s.dateCalls } ∧
      s'.initialized = s.initialized ∧
      s'.userId = s.userId ∧
      s'.dateCalls = s.dateCalls + 1 := by
  have hfr := uploadPush_frame env files s (.arr (atts0.map attachmentToJson))
  unfold updateMemory at h
  split at h
  · simp at h
  rw [hfindm] at h
  rw [show (match some m0 with
      | none => Json.arr []
      | some m => if m.media.truthy then m.media else Json.arr []) =
      (if m0.media.truthy then m0.media else Json.arr []) from rfl] at h
  rw [hmedia] at h
  rw [show (if (Json.arr (atts0.map attachmentToJson)).truthy = true
        then Json.arr (atts0.map attachmentToJson) else Json.arr []) =
      Json.arr (atts0.map attachmentToJson) from rfl] at h
  dsimp only at h
  split at h
  · exact absurd h (by simp)
  rename_i mediaVal hup
  rcases hpush : uploadPush env s (.arr (atts0.map attachmentToJson)) files with ⟨sa, ea, ra⟩
  rw [hpush] at hfr hup
  dsimp only at hfr hup
  subst hup
  obtain ⟨atts, hv, hfa⟩ :=
    uploadPush_ok env files s (atts0.map attachmentToJson) (by rw [hpush])
  rw [hpush] at h
  dsimp only at h
  split at h
  · exact absurd h (by simp)
  rename_i rec1 hnu
  rcases hnat : CloudKitNative.updateMemory env sa i updates.text updates.tags
      (some (jsonStringify mediaVal)) with ⟨sb, eb, rb⟩
  rw [hnat] at h hnu
  dsimp only at h hnu
  subst hnu
  have hfindr' : sa.records.find? (fun r => r.recordName == i) = some rec0 := by
    rw [hfr.2.1]
    exact hfindr
  obtain ⟨hrec1, hrecords, hmem, huid, hini, hdate, _⟩ :=
    CloudKitNative.nativeUpdateMemory_ok env sa i updates.text updates.tags
      (some (jsonStringify mediaVal)) hfindr' hnat
  have hserial : jsonStringify mediaVal = serializeAttachments (atts0 ++ atts) := by
    rw [hv]
    exact serializeAttachments_append atts0 atts
  simp only [Prod.mk.injEq, Except.ok.injEq] at h
  obtain ⟨h1, h2, h3⟩ := h
  have hm' : m' = { id := rec0.recordName,
                    text := updates.text.getD rec0.text,
                    tags := updates.tags.getD rec0.tags,
                    media := .arr ((atts0 ++ atts).map attachmentToJson),
                    createdAt := rec0.createdAt,
                    updatedAt := env.time s.dateCalls,
                    userId := s.userId.getD "" } := by
    rw [← h3, hrec1]
    show ({ id := rec0.recordName,
            text := (updates.text.getD rec0.text),
            tags := (updates.tags.getD rec0.tags),
            media := parsedMediaField ((some (jsonStringify mediaVal)).getD rec0.media),
            createdAt := rec0.createdAt,
            updatedAt := env.time sa.dateCalls,
            userId := sb.userId.getD "" } : CKMemory) = _
    rw [show (some (jsonStringify mediaVal)).getD rec0.media = jsonStringify mediaVal from rfl]
    rw [hserial, parsedMediaField_serialize, huid, hfr.2.2.2.1, hfr.2.2.2.2]
  refine ⟨atts, hfa, hm', ?_, ?_, ?_, ?_, ?_⟩
  · rw [← h1, ← h3]
    show sb.memories.map _ = _
    rw [hmem, hfr.1]
  · rw [← h1]
    show sb.records = _
    rw [hrecords, hfr.2.1, hrec1, hserial]
    show replaceRecord s.records i { rec0 with
                                     text := updates.text.getD rec0.text,
                                     tags := updates.tags.getD rec0.tags,
                                     media := serializeAttachments (atts0 ++ atts),
                                     updatedAt := env.time sa.dateCalls } = _
    rw [hfr.2.2.2.2]
  · rw [← h1]
    show sb.initialized = _
    rw [hini, hfr.2.2.1]
  · rw [← h1]
    show sb.userId = _
    rw [huid, hfr.2.2.2.1]
  · rw [← h1]
    show sb.dateCalls = _
    rw [hdate, hfr.2.2.2.2]

end CloudKit

end MemoryKeeper

namespace MemoryKeeper

/-! ### Concrete test fixtures -/

/-- An all-succeeding Drive environment over the identity clock. -/
def denvOk : DriveEnv :=
  { time := fun n => n,
    authOk := true,
    uploadOk := fun _ => true,
    saveOk := true,
    loadOk := true,
    remoteDoc := none,
    findFileId := some "file-0" }

/-- A sample cached memory. -/
def memA : Memory :=
  { id := "a", text := "A", tags := ["t"], media := [], createdAt := 0,
    updatedAt := 0, userId := "u" }

/-- An initialized Drive provider holding one memory. -/
def driveReady : DriveState :=
  { userId := some "u", initialized := true, memories := [memA],
    memoriesFileId := some "fid", dateCalls := 1, fresh := 0 }

/-- An all-succeeding CloudKit environment over the identity clock. -/
def ckenvOk : CKEnv :=
  { time := fun n => n,
    initOk := true,
    fetchRecOk := true,
    saveOk := true,
    fetchAllOk := true,
    uploadOk := fun _ => true,
    deleteMemOk := true,
    deleteMediaOk := true }

/-- An initialized CloudKit provider over an empty zone. -/
def ckReady : CKState :=
  { userId := some "u", initialized := true, memories := [], records := [],
    dateCalls := 0, fresh := 0 }

/-! ### Claims -/

/-- C10: on an initialized Google Drive provider, `deleteMemory` of an id
absent from the cache resolves successfully rather than failing with
`not_found`: it attempts no media deletion, leaves the cached memories
unchanged, still rewrites the remote document, and still notifies
subscribers. -/
theorem C10_delete_missing_resolves (env : DriveEnv) (s : DriveState) (memoryId : String)
    (hinit : s.initialized = true)
    (habs : ∀ m ∈ s.memories, m.id ≠ memoryId)
    (hauth : env.authOk = true) (hsave : env.saveOk = true)
    (fid : String) (hfid : s.memoriesFileId = some fid) :
    GoogleDrive.deleteMemory env s memoryId = (s, [Eff.netSaveDoc, Eff.notify], .ok ()) := by
  have hfind : s.memories.find? (fun m => m.id == memoryId) = none := by
    rw [List.find?_eq_none]
    intro m hm
    simp [habs m hm]
  have hfilter : s.memories.filter (fun m => ¬(m.id == memoryId)) = s.memories := by
    rw [List.filter_eq_self]
    intro m hm
    simp [habs m hm]
  unfold GoogleDrive.deleteMemory GoogleDrive.saveMemories
  rw [if_neg (by simp [hinit]), hfind, hfilter, hfid]
  simp [hauth, hsave]
  rw [← hfid]

/-- Witness for C10 at a concrete provider state. -/
theorem C10_witness :
    GoogleDrive.deleteMemory denvOk driveReady "missing" =
      (driveReady, [Eff.netSaveDoc, Eff.notify], .ok ()) :=
  C10_delete_missing_resolves denvOk driveReady "missing" rfl
    (by intro m hm; simp [driveReady, memA] at hm; simp [hm, memA]) rfl rfl "fid" rfl

end MemoryKeeper

namespace MemoryKeeper

/-- C2 (amended): every standard StorageProvider operation of both adapters —
`createMemory`, `updateMemory`, `deleteMemory`, `getMemories`, `getMemory`,
`uploadMedia`, `deleteMedia` and `removeMediaFromMemory` — checks
initialization first: invoked on an uninitialized provider it fails with a
`not_initialized` StorageError synchronously, before any network call (no
observable effects).  The original claim additionally asserted this for
`fetchChanges` and `forceSync`, which perform no such check — see the
counterexample. -/
theorem C2_not_initialized_guard (envD : DriveEnv) (envC : CKEnv)
    (sD : DriveState) (sC : CKState)
    (hD : sD.initialized = false) (hC : sC.initialized = false) :
    (∀ input, GoogleDrive.createMemory envD sD input = (sD, [], .error GoogleDrive.notInitErr)) ∧
    (∀ i u fs, GoogleDrive.updateMemory envD sD i u fs = (sD, [], .error GoogleDrive.notInitErr)) ∧
    (∀ i, GoogleDrive.deleteMemory envD sD i = (sD, [], .error GoogleDrive.notInitErr)) ∧
    GoogleDrive.getMemories sD = (sD, [], .error GoogleDrive.notInitErr) ∧
    (∀ i, GoogleDrive.getMemory sD i = (sD, [], .error GoogleDrive.notInitErr)) ∧
    (∀ f, GoogleDrive.uploadMedia envD sD f = (sD, [], .error GoogleDrive.notInitErr)) ∧
    (∀ i p, GoogleDrive.deleteMedia envD sD i p = (sD, [], .error GoogleDrive.notInitErr)) ∧
    (∀ i m, GoogleDrive.removeMediaFromMemory envD sD i m = (sD, [], .error GoogleDrive.notInitErr)) ∧
    (∀ input, CloudKit.createMemory envC sC input = (sC, [], .error CloudKit.notInitErr)) ∧
    (∀ i u fs, CloudKit.updateMemory envC sC i u fs = (sC, [], .error CloudKit.notInitErr)) ∧
    (∀ i, CloudKit.deleteMemory envC sC i = (sC, [], .error CloudKit.notInitErr)) ∧
    CloudKit.getMemories sC = (sC, [], .error CloudKit.notInitErr) ∧
    (∀ i, CloudKit.getMemory sC i = (sC, [], .error CloudKit.notInitErr)) ∧
    (∀ f, CloudKit.uploadMedia envC sC f = (sC, [], .error CloudKit.notInitErr)) ∧
    (∀ i p, CloudKit.deleteMedia envC sC i p = (sC, [], .error CloudKit.notInitErr)) ∧
    (∀ i m, CloudKit.removeMediaFromMemory envC sC i m = (sC, [], .error CloudKit.notInitErr)) := by
  refine ⟨?_, ?_, ?_, ?_, ?_, ?_, ?_, ?_, ?_, ?_, ?_, ?_, ?_, ?_, ?_, ?_⟩ <;>
    intros <;>
    simp [GoogleDrive.createMemory, GoogleDrive.updateMemory, GoogleDrive.deleteMemory,
      GoogleDrive.getMemories, GoogleDrive.getMemory, GoogleDrive.uploadMedia,
      GoogleDrive.deleteMedia, GoogleDrive.removeMediaFromMemory,
      CloudKit.createMemory, CloudKit.updateMemory, CloudKit.deleteMemory,
      CloudKit.getMemories, CloudKit.getMemory, CloudKit.uploadMedia,
      CloudKit.deleteMedia, CloudKit.removeMediaFromMemory, hD, hC]

/-- Witness for C2 on a freshly constructed provider pair. -/
theorem C2_witness :
    GoogleDrive.createMemory denvOk DriveState.fresh0 ⟨"t", [], []⟩ =
      (DriveState.fresh0, [], .error GoogleDrive.notInitErr) ∧
    CloudKit.getMemories (CKState.mk0 []) =
      (CKState.mk0 [], [], .error CloudKit.notInitErr) :=
  ⟨(C2_not_initialized_guard denvOk ckenvOk DriveState.fresh0 (CKState.mk0 []) rfl rfl).1 _,
   (C2_not_initialized_guard denvOk ckenvOk DriveState.fresh0 (CKState.mk0 []) rfl rfl).2.2.2.2.2.2.2.2.2.2.2.1⟩

/-- C2 counterexample: `fetchChanges` performs no initialization check on
either adapter.  On an uninitialized Google Drive provider it resolves with
`.ok []` (no `not_initialized` rejection), and on an uninitialized CloudKit
provider it resolves after actually reaching the network (`ckFetchAll`
precedes any error, and no error is raised at all). -/
theorem C2_counterexample :
    DriveState.fresh0.initialized = false ∧
    GoogleDrive.fetchChanges denvOk DriveState.fresh0 =
      (DriveState.fresh0, [Eff.notify], .ok []) ∧
    (CKState.mk0 []).initialized = false ∧
    CloudKit.fetchChanges ckenvOk (CKState.mk0 []) =
      (CKState.mk0 [], [Eff.ckFetchAll, Eff.notify], .ok []) ∧
    Eff.isNetwork Eff.ckFetchAll = true := by
  refine ⟨rfl, rfl, rfl, rfl, rfl⟩

end MemoryKeeper

namespace MemoryKeeper

/-- C1 (amended): on an initialized adapter with id `i` absent,
`GoogleDriveProvider.updateMemory`, `GoogleDriveProvider.removeMediaFromMemory`
and `CloudKitProvider.removeMediaFromMemory` fail with a `not_found`
StorageError as claimed; but `CloudKitProvider.updateMemory` performs no cache
existence check — its catch-all wraps the native-layer "Memory not found"
rejection, so it always fails with code `unknown`, never `not_found`. -/
theorem C1_not_found_contract (envD : DriveEnv) (envC : CKEnv)
    (sD : DriveState) (sC : CKState) (i : String)
    (hD : sD.initialized = true) (hC : sC.initialized = true)
    (habsD : sD.memories.find? (fun m => m.id == i) = none)
    (habsC : sC.memories.find? (fun m => m.id == i) = none)
    (habsR : sC.records.find? (fun r => r.recordName == i) = none) :
    (∀ u fs, GoogleDrive.updateMemory envD sD i u fs =
      (sD, [], .error (.storage .not_found "Memory not found"))) ∧
    (∀ m, GoogleDrive.removeMediaFromMemory envD sD i m =
      (sD, [], .error (.storage .not_found "Memory not found"))) ∧
    (∀ m, CloudKit.removeMediaFromMemory envC sC i m =
      (sC, [], .error (.storage .not_found "Memory not found"))) ∧
    (∀ u fs, resultCode (CloudKit.updateMemory envC sC i u fs).2.2 = some ECode.unknown) := by
  refine ⟨?_, ?_, ?_, ?_⟩
  · intro u fs; simp [GoogleDrive.updateMemory, hD, habsD]
  · intro m; simp [GoogleDrive.removeMediaFromMemory, hD, habsD]
  · intro m; simp [CloudKit.removeMediaFromMemory, hC, habsC]
  · intro u fs
    unfold CloudKit.updateMemory
    rw [if_neg (by simp [hC]), habsC]
    dsimp only
    have hfr := CloudKit.uploadPush_frame envC fs sC (.arr [])
    rcases hup : CloudKit.uploadPush envC sC (.arr []) fs with ⟨sa, ea, ra⟩
    rw [hup] at hfr
    dsimp only
    cases ra with
    | error e => rfl
    | ok v =>
      dsimp only
      unfold CloudKitNative.updateMemory
      by_cases hf : envC.fetchRecOk = true
      · rw [if_neg (by simp [hf]), hfr.2.1, habsR]
        rfl
      · rw [if_pos (by simp [hf])]
        rfl

/-- Witness for C1 at concrete initialized providers with an absent id. -/
theorem C1_witness :
    GoogleDrive.updateMemory denvOk driveReady "missing" MemUpdates.empty [] =
      (driveReady, [], .error (.storage .not_found "Memory not found")) ∧
    CloudKit.removeMediaFromMemory ckenvOk ckReady "missing" "m1" =
      (ckReady, [], .error (.storage .not_found "Memory not found")) :=
  ⟨(C1_not_found_contract denvOk ckenvOk driveReady ckReady "missing"
      rfl rfl rfl rfl rfl).1 MemUpdates.empty [],
   (C1_not_found_contract denvOk ckenvOk driveReady ckReady "missing"
      rfl rfl rfl rfl rfl).2.2.1 "m1"⟩

/-- C1 counterexample: on an initialized CloudKit provider whose cache and
zone are empty, `updateMemory` of an absent id fails with code `unknown`,
not `not_found`, refuting the claimed not-found contract for this adapter. -/
theorem C1_counterexample :
    resultCode (CloudKit.updateMemory ckenvOk ckReady "missing" MemUpdates.empty []).2.2 =
      some ECode.unknown ∧ ECode.unknown ≠ ECode.not_found :=
  ⟨rfl, by decide⟩

end MemoryKeeper

namespace MemoryKeeper

/-- C9 (amended): `recordToMemory` is a total function (modelled as such —
`JSON.parse` failure is caught), and an empty or unparseable `media` field
degrades to the empty array.  But when the field parses to any JSON value at
all, that value is kept unchanged — a field holding `"null"`, a number or an
object yields a memory whose media is that non-array value, not the empty
list, refuting the claimed degradation for parseable non-array content. -/
theorem C9_media_degradation (userId : Option String) (rec0 : CKRecordS) :
    (jsonParse (if rec0.media = "" then "[]" else rec0.media) = none →
      (CloudKit.recordToMemory userId rec0).media = .arr []) ∧
    (∀ v, jsonParse (if rec0.media = "" then "[]" else rec0.media) = some v →
      (CloudKit.recordToMemory userId rec0).media = v) := by
  constructor
  · intro h; simp [CloudKit.recordToMemory, CloudKit.parsedMediaField, h]
  · intro v h; simp [CloudKit.recordToMemory, CloudKit.parsedMediaField, h]

/-- A record whose `media` field holds unparseable text. -/
def recGarbage : CKRecordS :=
  { recordName := "r1", text := "t", tags := [], media := "not json",
    createdAt := 0, updatedAt := 0 }

/-- Witness for C9: the garbage media field degrades to the empty array. -/
theorem C9_witness :
    (CloudKit.recordToMemory (some "u") recGarbage).media = .arr [] :=
  (C9_media_degradation (some "u") recGarbage).1 rfl

/-- A record whose `media` field holds the parseable non-array text `null`. -/
def recNullMedia : CKRecordS :=
  { recordName := "r2", text := "t", tags := [], media := "null",
    createdAt := 0, updatedAt := 0 }

/-- C9 counterexample: a `media` field holding the string `null` parses
successfully, so the converted memory's media is the JSON value `null` — not
the empty list the claim promises for every non-array content. -/
theorem C9_counterexample :
    (CloudKit.recordToMemory (some "u") recNullMedia).media = Json.null ∧
    Json.null ≠ Json.arr [] :=
  ⟨rfl, by simp⟩

end MemoryKeeper

namespace MemoryKeeper

/-- The cache evolution of a sequence of `createMemory` calls on the Google
Drive adapter, collecting the created memories in call order; stops at the
first failure. -/
def GoogleDrive.createAll (env : DriveEnv) : DriveState → List MemoryInput →
    DriveState × Except Err (List Memory)
  | s, [] => (s, .ok [])
  | s, i :: is =>
    match GoogleDrive.createMemory env s i with
    | (s1, _, .error e) => (s1, .error e)
    | (s1, _, .ok m) =>
      match GoogleDrive.createAll env s1 is with
      | (s2, .ok ms) => (s2, .ok (m :: ms))
      | (s2, .error e) => (s2, .error e)

/-- The same call sequence on the CloudKit adapter. -/
def CloudKit.createAll (env : CKEnv) : CKState → List MemoryInput →
    CKState × Except Err (List CKMemory)
  | s, [] => (s, .ok [])
  | s, i :: is =>
    match CloudKit.createMemory env s i with
    | (s1, _, .error e) => (s1, .error e)
    | (s1, _, .ok m) =>
      match CloudKit.createAll env s1 is with
      | (s2, .ok ms) => (s2, .ok (m :: ms))
      | (s2, .error e) => (s2, .error e)

/-- C4: on both adapters every successful `createMemory` prepends the new
memory to the front of the cache, and after any sequence of N successful
creates with no intervening resync, `getMemories` returns the creations
most-recent-first (last created first) ahead of the pre-existing cache. -/
theorem C4_most_recent_first (env : DriveEnv) (envC : CKEnv) :
    (∀ s input s' effs m, GoogleDrive.createMemory env s input = (s', effs, .ok m) →
      s'.memories = m :: s.memories) ∧
    (∀ s input s' effs m, CloudKit.createMemory envC s input = (s', effs, .ok m) →
      s'.memories = m :: s.memories) ∧
    (∀ inputs s s' ms, GoogleDrive.createAll env s inputs = (s', .ok ms) →
      s'.memories = ms.reverse ++ s.memories ∧
      (s'.initialized = true →
        GoogleDrive.getMemories s' = (s', [], .ok (ms.reverse ++ s.memories)))) ∧
    (∀ inputs s s' ms, CloudKit.createAll envC s inputs = (s', .ok ms) →
      s'.memories = ms.reverse ++ s.memories ∧
      (s'.initialized = true →
        CloudKit.getMemories s' = (s', [], .ok (ms.reverse ++ s.memories)))) := by
  have hfoldD : ∀ inputs (s s' : DriveState) ms,
      GoogleDrive.createAll env s inputs = (s', .ok ms) →
      s'.memories = ms.reverse ++ s.memories := by
    intro inputs
    induction inputs with
    | nil =>
      intro s s' ms h
      simp only [GoogleDrive.createAll, Prod.mk.injEq, Except.ok.injEq] at h
      obtain ⟨h1, h2⟩ := h
      subst h1; subst h2; simp
    | cons i is ih =>
      intro s s' ms h
      unfold GoogleDrive.createAll at h
      rcases hc : GoogleDrive.createMemory env s i with ⟨s1, e1, r1⟩
      rw [hc] at h
      cases r1 with
      | error e => simp at h
      | ok m =>
        dsimp only at h
        rcases hr : GoogleDrive.createAll env s1 is with ⟨s2, r2⟩
        rw [hr] at h
        cases r2 with
        | error e => simp at h
        | ok ms2 =>
          dsimp only at h
          simp only [Prod.mk.injEq, Except.ok.injEq] at h
          obtain ⟨h1, h2⟩ := h
          subst h1; subst h2
          rw [ih s1 s2 ms2 hr, (GoogleDrive.driveCreateMemory_ok env s i hc).1]
          simp
  have hfoldC : ∀ inputs (s s' : CKState) ms,
      CloudKit.createAll envC s inputs = (s', .ok ms) →
      s'.memories = ms.reverse ++ s.memories := by
    intro inputs
    induction inputs with
    | nil =>
      intro s s' ms h
      simp only [CloudKit.createAll, Prod.mk.injEq, Except.ok.injEq] at h
      obtain ⟨h1, h2⟩ := h
      subst h1; subst h2; simp
    | cons i is ih =>
      intro s s' ms h
      unfold CloudKit.createAll at h
      rcases hc : CloudKit.createMemory envC s i with ⟨s1, e1, r1⟩
      rw [hc] at h
      cases r1 with
      | error e => simp at h
      | ok m =>
        dsimp only at h
        rcases hr : CloudKit.createAll envC s1 is with ⟨s2, r2⟩
        rw [hr] at h
        cases r2 with
        | error e => simp at h
        | ok ms2 =>
          dsimp only at h
          simp only [Prod.mk.injEq, Except.ok.injEq] at h
          obtain ⟨h1, h2⟩ := h
          subst h1; subst h2
          rw [ih s1 s2 ms2 hr, (CloudKit.ckCreateMemory_ok envC s i hc).1]
          simp
  refine ⟨?_, ?_, ?_, ?_⟩
  · intro s input s' effs m h; exact (GoogleDrive.driveCreateMemory_ok env s input h).1
  · intro s input s' effs m h; exact (CloudKit.ckCreateMemory_ok envC s input h).1
  · intro inputs s s' ms h
    refine ⟨hfoldD inputs s s' ms h, fun hinit => ?_⟩
    simp [GoogleDrive.getMemories, hinit, ← hfoldD inputs s s' ms h]
  · intro inputs s s' ms h
    refine ⟨hfoldC inputs s s' ms h, fun hinit => ?_⟩
    simp [CloudKit.getMemories, hinit, ← hfoldC inputs s s' ms h]

end MemoryKeeper

namespace MemoryKeeper

/-- Witness for C4: two creations on each adapter, most recent first. -/
theorem C4_witness :
    ((GoogleDrive.createAll denvOk driveReady [⟨"A", [], []⟩, ⟨"B", [], []⟩]).1).memories =
      ([{ id := "uuid-0", text := "A", tags := [], media := [], createdAt := 1,
          updatedAt := 1, userId := "u" },
        { id := "uuid-1", text := "B", tags := [], media := [], createdAt := 2,
          updatedAt := 2, userId := "u" }].reverse ++ driveReady.memories) ∧
    ((CloudKit.createAll ckenvOk ckReady [⟨"A", [], []⟩, ⟨"B", [], []⟩]).1).memories =
      ([{ id := "uuid-0", text := "A", tags := [], media := .arr [], createdAt := 0,
          updatedAt := 1, userId := "u" },
        { id := "uuid-1", text := "B", tags := [], media := .arr [], createdAt := 2,
          updatedAt := 3, userId := "u" }].reverse ++ ckReady.memories) :=
  ⟨((C4_most_recent_first denvOk ckenvOk).2.2.1 [⟨"A", [], []⟩, ⟨"B", [], []⟩] driveReady
      (GoogleDrive.createAll denvOk driveReady [⟨"A", [], []⟩, ⟨"B", [], []⟩]).1
      [{ id := "uuid-0", text := "A", tags := [], media := [], createdAt := 1,
         updatedAt := 1, userId := "u" },
       { id := "uuid-1", text := "B", tags := [], media := [], createdAt := 2,
         updatedAt := 2, userId := "u" }] (by rfl)).1,
   ((C4_most_recent_first denvOk ckenvOk).2.2.2 [⟨"A", [], []⟩, ⟨"B", [], []⟩] ckReady
      (CloudKit.createAll ckenvOk ckReady [⟨"A", [], []⟩, ⟨"B", [], []⟩]).1
      [{ id := "uuid-0", text := "A", tags := [], media := .arr [], createdAt := 0,
         updatedAt := 1, userId := "u" },
       { id := "uuid-1", text := "B", tags := [], media := .arr [], createdAt := 2,
         updatedAt := 3, userId := "u" }] (by rfl)).1⟩

end MemoryKeeper

namespace MemoryKeeper

/-- A successful Drive `createMemory` implies the provider was initialized. -/
theorem GoogleDrive.driveCreateMemory_init {env : DriveEnv} {s : DriveState}
    {input : MemoryInput} {s' : DriveState} {effs : List Eff} {m : Memory}
    (h : GoogleDrive.createMemory env s input = (s', effs, .ok m)) :
    s.initialized = true := by
  by_contra hni
  unfold GoogleDrive.createMemory at h
  rw [if_pos hni] at h
  simp at h

/-- A successful CloudKit `createMemory` implies the provider was
initialized. -/
theorem CloudKit.ckCreateMemory_init {env : CKEnv} {s : CKState}
    {input : MemoryInput} {s' : CKState} {effs : List Eff} {m : CKMemory}
    (h : CloudKit.createMemory env s input = (s', effs, .ok m)) :
    s.initialized = true := by
  by_contra hni
  unfold CloudKit.createMemory at h
  rw [if_pos hni] at h
  simp at h

/-- C6 (amended): on both adapters a successful `createMemory` followed by
`getMemory` of the returned id round-trips: the stored memory is returned,
its `text`, `tags` and media count match the input.  On the Drive adapter
`createdAt = updatedAt` (one clock reading is used for both).  On the
CloudKit adapter the native plugin takes two separate `Date()` readings, so
`createdAt` and `updatedAt` come from consecutive clock samples and need not
be equal — see the counterexample. -/
theorem C6_roundtrip (envD : DriveEnv) (envC : CKEnv) :
    (∀ s input s' effs m, GoogleDrive.createMemory envD s input = (s', effs, .ok m) →
      GoogleDrive.getMemory s' m.id = (s', [], .ok (some m)) ∧
      m.text = input.text ∧ m.tags = input.tags ∧
      m.media.length = input.mediaFiles.length ∧
      m.createdAt = m.updatedAt) ∧
    (∀ s input s' effs m, CloudKit.createMemory envC s input = (s', effs, .ok m) →
      CloudKit.getMemory s' m.id = (s', [], .ok (some m)) ∧
      m.text = input.text ∧ m.tags = input.tags ∧
      (∃ l, m.media = Json.arr l ∧ l.length = input.mediaFiles.length) ∧
      m.createdAt = envC.time s.dateCalls ∧
      m.updatedAt = envC.time (s.dateCalls + 1)) := by
  constructor
  · intro s input s' effs m h
    have h1 := GoogleDrive.driveCreateMemory_ok envD s input h
    have hi : s'.initialized = true :=
      h1.2.2.2.2.2.2.2.1.trans (GoogleDrive.driveCreateMemory_init h)
    refine ⟨?_, h1.2.1, h1.2.2.1,
      h1.2.2.2.2.2.2.1.length_eq, h1.2.2.2.1.trans h1.2.2.2.2.1.symm⟩
    unfold GoogleDrive.getMemory
    rw [if_neg (by simp [hi]), h1.1]
    simp [List.find?_cons_of_pos]
  · intro s input s' effs m h
    have h1 := CloudKit.ckCreateMemory_ok envC s input h
    have hi : s'.initialized = true :=
      h1.2.2.2.2.2.2.2.1.trans (CloudKit.ckCreateMemory_init h)
    obtain ⟨atts, hmv, hfa⟩ := h1.2.2.2.1
    refine ⟨?_, h1.2.1, h1.2.2.1,
      ⟨atts.map attachmentToJson, hmv, by simp [hfa.length_eq]⟩,
      h1.2.2.2.2.1, h1.2.2.2.2.2.1⟩
    unfold CloudKit.getMemory
    rw [if_neg (by simp [hi]), h1.1]
    simp [List.find?_cons_of_pos]

/-- The memory created in the C6 witness on the Drive adapter. -/
def mC6D : Memory :=
  { id := "uuid-2", text := "hello", tags := ["x"],
    media := [{ id := "uuid-0", type := .image,
                url := "https://www.googleapis.com/drive/v3/files/drv-1?alt=media",
                fileName := "pic.png", storagePath := "drv-1" }],
    createdAt := 1, updatedAt := 1, userId := "u" }

/-- The memory created in the C6 witness on the CloudKit adapter. -/
def mC6C : CKMemory :=
  { id := "uuid-1", text := "hello", tags := ["x"],
    media := .arr [.obj [("id", .str "uuid-0"), ("type", .str "image"),
                         ("url", .str "icloud://Documents/media/uuid-0.png"),
                         ("fileName", .str "pic.png"),
                         ("storagePath", .str "media/uuid-0.png")]],
    createdAt := 0, updatedAt := 1, userId := "u" }

/-- The input of the C6 witness. -/
def iC6 : MemoryInput := ⟨"hello", ["x"], [⟨"pic.png", "image/png", "d"⟩]⟩

set_option maxRecDepth 4000 in
/-- Witness for C6: a creation with one media file on each adapter. -/
theorem C6_witness :
    (GoogleDrive.getMemory (GoogleDrive.createMemory denvOk driveReady iC6).1 mC6D.id =
       ((GoogleDrive.createMemory denvOk driveReady iC6).1, [], .ok (some mC6D)) ∧
     mC6D.text = iC6.text ∧ mC6D.tags = iC6.tags ∧
     mC6D.media.length = iC6.mediaFiles.length ∧
     mC6D.createdAt = mC6D.updatedAt) ∧
    (CloudKit.getMemory (CloudKit.createMemory ckenvOk ckReady iC6).1 mC6C.id =
       ((CloudKit.createMemory ckenvOk ckReady iC6).1, [], .ok (some mC6C)) ∧
     mC6C.text = iC6.text ∧ mC6C.tags = iC6.tags ∧
     (∃ l, mC6C.media = Json.arr l ∧ l.length = iC6.mediaFiles.length) ∧
     mC6C.createdAt = ckenvOk.time ckReady.dateCalls ∧
     mC6C.updatedAt = ckenvOk.time (ckReady.dateCalls + 1)) :=
  ⟨(C6_roundtrip denvOk ckenvOk).1 driveReady iC6
     (GoogleDrive.createMemory denvOk driveReady iC6).1
     (GoogleDrive.createMemory denvOk driveReady iC6).2.1 mC6D (by rfl),
   (C6_roundtrip denvOk ckenvOk).2 ckReady iC6
     (CloudKit.createMemory ckenvOk ckReady iC6).1
     (CloudKit.createMemory ckenvOk ckReady iC6).2.1 mC6C (by rfl)⟩

/-- C6 counterexample: on the CloudKit adapter under the identity clock, a
successful creation yields `createdAt = 0` but `updatedAt = 1` — the claimed
`createdAt == updatedAt` at creation fails on this backend. -/
theorem C6_counterexample :
    ∃ m, (CloudKit.createMemory ckenvOk ckReady ⟨"x", [], []⟩).2.2 = .ok m ∧
      m.createdAt = 0 ∧ m.updatedAt = 1 ∧ m.createdAt ≠ m.updatedAt :=
  ⟨{ id := "uuid-0", text := "x", tags := [], media := .arr [],
     createdAt := 0, updatedAt := 1, userId := "u" },
   rfl, rfl, rfl, by decide⟩

end MemoryKeeper

namespace MemoryKeeper

/-- C5: on both initialized adapters, for an existing memory,
`updateMemory(id, \x7b\x7d, [fileA])` followed by
`updateMemory(id, \x7b\x7d, [fileB])` appends the attachment of `fileA` and
then the attachment of `fileB` after the original media, in that order — no
reordering and no loss; new media never replaces existing media. -/
theorem C5_append_only_media :
    (∀ (env : DriveEnv) (s : DriveState) (i : String) (fA fB : DFile)
       (m0 : Memory) (s1 : DriveState) (e1 : List Eff) (m1 : Memory)
       (s2 : DriveState) (e2 : List Eff) (m2 : Memory),
      s.memories.find? (fun x => x.id == i) = some m0 →
      GoogleDrive.updateMemory env s i MemUpdates.empty [fA] = (s1, e1, .ok m1) →
      GoogleDrive.updateMemory env s1 i MemUpdates.empty [fB] = (s2, e2, .ok m2) →
      ∃ a1 a2, a1.fileName = fA.name ∧ a2.fileName = fB.name ∧
        m1.media = m0.media ++ [a1] ∧
        m2.media = m0.media ++ [a1, a2] ∧
        s2.memories.find? (fun x => x.id == i) = some m2) ∧
    (∀ (env : CKEnv) (s : CKState) (i : String) (fA fB : DFile)
       (m0 : CKMemory) (atts0 : List MediaAttachment) (rec0 : CKRecordS)
       (s1 : CKState) (e1 : List Eff) (m1 : CKMemory)
       (s2 : CKState) (e2 : List Eff) (m2 : CKMemory),
      s.memories.find? (fun x => x.id == i) = some m0 →
      m0.media = .arr (atts0.map attachmentToJson) →
      s.records.find? (fun r => r.recordName == i) = some rec0 →
      CloudKit.updateMemory env s i MemUpdates.empty [fA] = (s1, e1, .ok m1) →
      CloudKit.updateMemory env s1 i MemUpdates.empty [fB] = (s2, e2, .ok m2) →
      ∃ a1 a2, a1.fileName = fA.name ∧ a2.fileName = fB.name ∧
        m1.media = .arr ((atts0 ++ [a1]).map attachmentToJson) ∧
        m2.media = .arr ((atts0 ++ [a1, a2]).map attachmentToJson)) := by
  constructor
  · intro env s i fA fB m0 s1 e1 m1 s2 e2 m2 hf h1 h2
    obtain ⟨⟨atts1, hfa1, hm1⟩, hrep1, hA1, hB1, hC1, hD1⟩ :=
      GoogleDrive.driveUpdateMemory_ok env s i MemUpdates.empty [fA] hf h1
    cases hfa1 with
    | cons ha1 htail1 =>
      cases htail1
      rename_i a1
      have hm0i : m0.id = i := by simpa using List.find?_some hf
      have hid1 : m1.id = i := by rw [hm1]; exact hm0i
      have hfind1 : s1.memories.find? (fun x => x.id == i) = some m1 := by
        rw [hrep1]; exact find?_replaceById hf hid1
      obtain ⟨⟨atts2, hfa2, hm2⟩, hrep2, hA2, hB2, hC2, hD2⟩ :=
        GoogleDrive.driveUpdateMemory_ok env s1 i MemUpdates.empty [fB] hfind1 h2
      cases hfa2 with
      | cons ha2 htail2 =>
        cases htail2
        rename_i a2
        have hid2 : m2.id = i := by rw [hm2]; exact hid1
        have hm1media : m1.media = m0.media ++ [a1] := by rw [hm1]
        have hm2media : m2.media = m0.media ++ [a1, a2] := by
          rw [hm2]
          show m1.media ++ [a2] = _
          rw [hm1media]
          simp
        refine ⟨a1, a2, ha1.1, ha2.1, hm1media, hm2media, ?_⟩
        rw [hrep2]; exact find?_replaceById hfind1 hid2
  · intro env s i fA fB m0 atts0 rec0 s1 e1 m1 s2 e2 m2 hfm hmedia hfr h1 h2
    obtain ⟨atts1, hfa1, hm1, hcache1, hrecords1, hE1, hF1, hG1⟩ :=
      CloudKit.ckUpdateMemory_ok env s i MemUpdates.empty [fA] hfm hmedia hfr h1
    cases hfa1 with
    | cons ha1 htail1 =>
      cases htail1
      rename_i a1
      have hreci : rec0.recordName = i := by simpa using List.find?_some hfr
      have hid1 : m1.id = i := by rw [hm1]; exact hreci
      have hfm1 : s1.memories.find? (fun x => x.id == i) = some m1 := by
        rw [hcache1]; exact find?_mapReplace hfm hid1
      have hm1media : m1.media = .arr ((atts0 ++ [a1]).map attachmentToJson) := by
        rw [hm1]
      have hfr1 : s1.records.find? (fun r => r.recordName == i) =
          some { rec0 with
                 text := (MemUpdates.empty).text.getD rec0.text,
                 tags := (MemUpdates.empty).tags.getD rec0.tags,
                 media := serializeAttachments (atts0 ++ [a1]),
                 updatedAt := env.time s.dateCalls } := by
        rw [hrecords1]; exact find?_replaceRecord hfr hreci
      obtain ⟨atts2, hfa2, hm2, hE2, hF2, hG2, hH2, hI2⟩ :=
        CloudKit.ckUpdateMemory_ok env s1 i MemUpdates.empty [fB] hfm1 hm1media hfr1 h2
      cases hfa2 with
      | cons ha2 htail2 =>
        cases htail2
        rename_i a2
        refine ⟨a1, a2, ha1.1, ha2.1, hm1media, ?_⟩
        rw [hm2]
        show Json.arr (((atts0 ++ [a1]) ++ [a2]).map attachmentToJson) = _
        simp

end MemoryKeeper

namespace MemoryKeeper

/-- First media file of the two-step append witnesses. -/
def fAw : DFile := ⟨"a.png", "image/png", "dA"⟩

/-- Second media file of the two-step append witnesses. -/
def fBw : DFile := ⟨"b.mp3", "audio/mpeg", "dB"⟩

/-- A remote CloudKit record matching `ckmA`. -/
def recA : CKRecordS :=
  { recordName := "a", text := "A", tags := ["t"], media := "[]",
    createdAt := 0, updatedAt := 0 }

/-- A cached CloudKit memory consistent with `recA`. -/
def ckmA : CKMemory :=
  { id := "a", text := "A", tags := ["t"], media := .arr [],
    createdAt := 0, updatedAt := 0, userId := "u" }

/-- An initialized CloudKit provider holding one memory and its record. -/
def ckReady1 : CKState :=
  { userId := some "u", initialized := true, memories := [ckmA],
    records := [recA], dateCalls := 0, fresh := 0 }

end MemoryKeeper

namespace MemoryKeeper

/-- Drive state after the first witness update. -/
def s1wD : DriveState :=
  (GoogleDrive.updateMemory denvOk driveReady "a" MemUpdates.empty [fAw]).1

/-- Drive state after the second witness update. -/
def s2wD : DriveState :=
  (GoogleDrive.updateMemory denvOk s1wD "a" MemUpdates.empty [fBw]).1

/-- The memory after the first witness update on the Drive adapter. -/
def m1wD : Memory :=
  { id := "a", text := "A", tags := ["t"],
    media := [{ id := "uuid-0", type := .image,
                url := "https://www.googleapis.com/drive/v3/files/drv-1?alt=media",
                fileName := "a.png", storagePath := "drv-1" }],
    createdAt := 0, updatedAt := 1, userId := "u" }

/-- The memory after the second witness update on the Drive adapter. -/
def m2wD : Memory :=
  { id := "a", text := "A", tags := ["t"],
    media := [{ id := "uuid-0", type := .image,
                url := "https://www.googleapis.com/drive/v3/files/drv-1?alt=media",
                fileName := "a.png", storagePath := "drv-1" },
              { id := "uuid-2", type := .audio,
                url := "https://www.googleapis.com/drive/v3/files/drv-3?alt=media",
                fileName := "b.mp3", storagePath := "drv-3" }],
    createdAt := 0, updatedAt := 2, userId := "u" }

/-- CloudKit state after the first witness update. -/
def s1wC : CKState :=
  (CloudKit.updateMemory ckenvOk ckReady1 "a" MemUpdates.empty [fAw]).1

/-- CloudKit state after the second witness update. -/
def s2wC : CKState :=
  (CloudKit.updateMemory ckenvOk s1wC "a" MemUpdates.empty [fBw]).1

/-- The memory after the first witness update on the CloudKit adapter. -/
def m1wC : CKMemory :=
  { id := "a", text := "A", tags := ["t"],
    media := .arr [.obj [("id", .str "uuid-0"), ("type", .str "image"),
                         ("url", .str "icloud://Documents/media/uuid-0.png"),
                         ("fileName", .str "a.png"),
                         ("storagePath", .str "media/uuid-0.png")]],
    createdAt := 0, updatedAt := 0, userId := "u" }

/-- The memory after the second witness update on the CloudKit adapter. -/
def m2wC : CKMemory :=
  { id := "a", text := "A", tags := ["t"],
    media := .arr [.obj [("id", .str "uuid-0"), ("type", .str "image"),
                         ("url", .str "icloud://Documents/media/uuid-0.png"),
                         ("fileName", .str "a.png"),
                         ("storagePath", .str "media/uuid-0.png")],
                   .obj [("id", .str "uuid-1"), ("type", .str "audio"),
                         ("url", .str "icloud://Documents/media/uuid-1.mp3"),
                         ("fileName", .str "b.mp3"),
                         ("storagePath", .str "media/uuid-1.mp3")]],
    createdAt := 0, updatedAt := 1, userId := "u" }

set_option maxRecDepth 8000 in
/-- Witness for C5: two single-file updates on each adapter. -/
theorem C5_witness :
    (∃ a1 a2, a1.fileName = fAw.name ∧ a2.fileName = fBw.name ∧
      m1wD.media = memA.media ++ [a1] ∧
      m2wD.media = memA.media ++ [a1, a2] ∧
      s2wD.memories.find? (fun x => x.id == "a") = some m2wD) ∧
    (∃ a1 a2, a1.fileName = fAw.name ∧ a2.fileName = fBw.name ∧
      m1wC.media = .arr (([] ++ [a1]).map attachmentToJson) ∧
      m2wC.media = .arr (([] ++ [a1, a2]).map attachmentToJson)) :=
  ⟨C5_append_only_media.1 denvOk driveReady "a" fAw fBw memA
     s1wD (GoogleDrive.updateMemory denvOk driveReady "a" MemUpdates.empty [fAw]).2.1 m1wD
     s2wD (GoogleDrive.updateMemory denvOk s1wD "a" MemUpdates.empty [fBw]).2.1 m2wD
     rfl (by rfl) (by rfl),
   C5_append_only_media.2 ckenvOk ckReady1 "a" fAw fBw ckmA [] recA
     s1wC (CloudKit.updateMemory ckenvOk ckReady1 "a" MemUpdates.empty [fAw]).2.1 m1wC
     s2wC (CloudKit.updateMemory ckenvOk s1wC "a" MemUpdates.empty [fBw]).2.1 m2wC
     rfl rfl rfl (by rfl) (by rfl)⟩

end MemoryKeeper

namespace MemoryKeeper

/-- C7: on both adapters a successful `updateMemory` leaves every field not
named in the partial update unchanged — `id`, `createdAt`, `userId`, `text`
and `tags` when their keys are absent, and `media` when no new files are
supplied — while `updatedAt` is always refreshed from the clock at call time
(strictly newer than any earlier reading under a strictly increasing clock),
even for an empty update.  On the CloudKit adapter the record fields are
required to agree with the cache entry, since the rebuilt memory is read back
from the stored record. -/
theorem C7_frame_updateMemory :
    (∀ (env : DriveEnv) (s : DriveState) (i : String) (updates : MemUpdates)
       (files : List DFile) (m0 : Memory) (s' : DriveState) (effs : List Eff)
       (m' : Memory),
      s.memories.find? (fun x => x.id == i) = some m0 →
      GoogleDrive.updateMemory env s i updates files = (s', effs, .ok m') →
      m'.id = m0.id ∧ m'.createdAt = m0.createdAt ∧ m'.userId = m0.userId ∧
      (updates.text = none → m'.text = m0.text) ∧
      (updates.tags = none → m'.tags = m0.tags) ∧
      (files = [] → m'.media = m0.media) ∧
      m'.updatedAt = env.time s.dateCalls ∧
      (∀ k, m0.updatedAt = env.time k → k < s.dateCalls →
        (∀ a b, a < b → env.time a < env.time b) → m0.updatedAt < m'.updatedAt)) ∧
    (∀ (env : CKEnv) (s : CKState) (i : String) (updates : MemUpdates)
       (files : List DFile) (m0 : CKMemory) (atts0 : List MediaAttachment)
       (rec0 : CKRecordS) (s' : CKState) (effs : List Eff) (m' : CKMemory),
      s.memories.find? (fun x => x.id == i) = some m0 →
      m0.media = .arr (atts0.map attachmentToJson) →
      s.records.find? (fun r => r.recordName == i) = some rec0 →
      rec0.text = m0.text → rec0.tags = m0.tags → rec0.createdAt = m0.createdAt →
      m0.id = i → m0.userId = s.userId.getD "" →
      CloudKit.updateMemory env s i updates files = (s', effs, .ok m') →
      m'.id = m0.id ∧ m'.createdAt = m0.createdAt ∧ m'.userId = m0.userId ∧
      (updates.text = none → m'.text = m0.text) ∧
      (updates.tags = none → m'.tags = m0.tags) ∧
      (files = [] → m'.media = m0.media) ∧
      m'.updatedAt = env.time s.dateCalls ∧
      (∀ k, m0.updatedAt = env.time k → k < s.dateCalls →
        (∀ a b, a < b → env.time a < env.time b) → m0.updatedAt < m'.updatedAt)) := by
  constructor
  · intro env s i updates files m0 s' effs m' hf h
    obtain ⟨⟨atts, hfa, hm⟩, hrep, hA, hB, hC, hD⟩ :=
      GoogleDrive.driveUpdateMemory_ok env s i updates files hf h
    have hupd : m'.updatedAt = env.time s.dateCalls := by rw [hm]
    refine ⟨by rw [hm], by rw [hm], by rw [hm], ?_, ?_, ?_, hupd, ?_⟩
    · intro ht; rw [hm]; show updates.text.getD m0.text = m0.text; rw [ht]; rfl
    · intro ht; rw [hm]; show updates.tags.getD m0.tags = m0.tags; rw [ht]; rfl
    · intro hfiles
      subst hfiles
      cases hfa
      rw [hm]
      show m0.media ++ [] = m0.media
      simp
    · intro k hk hlt hmono
      rw [hupd, hk]
      exact hmono k s.dateCalls hlt
  · intro env s i updates files m0 atts0 rec0 s' effs m'
      hfm hmedia hfr htext htags hcreated hid huser h
    obtain ⟨atts, hfa, hm, hcache, hrecords, hE, hF, hG⟩ :=
      CloudKit.ckUpdateMemory_ok env s i updates files hfm hmedia hfr h
    have hreci : rec0.recordName = i := by simpa using List.find?_some hfr
    have hupd : m'.updatedAt = env.time s.dateCalls := by rw [hm]
    refine ⟨?_, ?_, ?_, ?_, ?_, ?_, hupd, ?_⟩
    · rw [hm]; show rec0.recordName = m0.id; rw [hreci, hid]
    · rw [hm]; show rec0.createdAt = m0.createdAt; rw [hcreated]
    · rw [hm]; show s.userId.getD "" = m0.userId; rw [huser]
    · intro ht; rw [hm]; show updates.text.getD rec0.text = m0.text; rw [ht, htext]; rfl
    · intro ht; rw [hm]; show updates.tags.getD rec0.tags = m0.tags; rw [ht, htags]; rfl
    · intro hfiles
      subst hfiles
      cases hfa
      rw [hm]
      show Json.arr ((atts0 ++ []).map attachmentToJson) = m0.media
      rw [hmedia]
      simp
    · intro k hk hlt hmono
      rw [hupd, hk]
      exact hmono k s.dateCalls hlt

end MemoryKeeper

namespace MemoryKeeper

/-- The memory returned by the C7 witness update on the Drive adapter. -/
def m1uD : Memory :=
  { id := "a", text := "New", tags := ["t"], media := [],
    createdAt := 0, updatedAt := 1, userId := "u" }

/-- The memory returned by the C7 witness update on the CloudKit adapter. -/
def m1uC : CKMemory :=
  { id := "a", text := "New", tags := ["t"], media := .arr [],
    createdAt := 0, updatedAt := 0, userId := "u" }

set_option maxRecDepth 8000 in
/-- Witness for C7: a text-only update on each adapter leaves the unnamed
fields unchanged and refreshes `updatedAt`. -/
theorem C7_witness :
    ((GoogleDrive.updateMemory denvOk driveReady "a" ⟨some "New", none⟩ []).2.2 =
       .ok m1uD ∧
     m1uD.id = memA.id ∧ m1uD.createdAt = memA.createdAt ∧
     m1uD.userId = memA.userId ∧ m1uD.tags = memA.tags ∧
     m1uD.media = memA.media ∧
     m1uD.updatedAt = denvOk.time driveReady.dateCalls ∧
     memA.updatedAt < m1uD.updatedAt) ∧
    ((CloudKit.updateMemory ckenvOk ckReady1 "a" ⟨some "New", none⟩ []).2.2 =
       .ok m1uC ∧
     m1uC.id = ckmA.id ∧ m1uC.createdAt = ckmA.createdAt ∧
     m1uC.userId = ckmA.userId ∧ m1uC.tags = ckmA.tags ∧
     m1uC.media = ckmA.media ∧
     m1uC.updatedAt = ckenvOk.time ckReady1.dateCalls) := by
  have hD := C7_frame_updateMemory.1 denvOk driveReady "a" ⟨some "New", none⟩ [] memA
    (GoogleDrive.updateMemory denvOk driveReady "a" ⟨some "New", none⟩ []).1
    (GoogleDrive.updateMemory denvOk driveReady "a" ⟨some "New", none⟩ []).2.1 m1uD
    rfl (by rfl)
  have hC := C7_frame_updateMemory.2 ckenvOk ckReady1 "a" ⟨some "New", none⟩ [] ckmA [] recA
    (CloudKit.updateMemory ckenvOk ckReady1 "a" ⟨some "New", none⟩ []).1
    (CloudKit.updateMemory ckenvOk ckReady1 "a" ⟨some "New", none⟩ []).2.1 m1uC
    rfl rfl rfl rfl rfl rfl rfl rfl (by rfl)
  exact ⟨⟨rfl, hD.1, hD.2.1, hD.2.2.1, hD.2.2.2.2.1 rfl, hD.2.2.2.2.2.1 rfl,
          hD.2.2.2.2.2.2.1, hD.2.2.2.2.2.2.2 0 rfl (by decide) (fun a b h => h)⟩,
         ⟨rfl, hC.1, hC.2.1, hC.2.2.1, hC.2.2.2.2.1 rfl, hC.2.2.2.2.2.1 rfl,
          hC.2.2.2.2.2.2.1⟩⟩

end MemoryKeeper

namespace MemoryKeeper

/-- Every progress event of the blob-download loop is `fetching`. -/
theorem exportMediaLoop_statuses (env : FireEnv) :
    ∀ (ms : List MediaAttachment) (blobs : List (String × String)),
    ∀ x ∈ (exportMediaLoop env blobs ms).2, x = MStatus.fetching := by
  intro ms
  induction ms with
  | nil => intro blobs x hx; simp [exportMediaLoop] at hx
  | cons a rest ih =>
    intro blobs x hx
    by_cases hsp : a.storagePath = ""
    · rw [exportMediaLoop, if_pos hsp] at hx
      exact ih blobs x hx
    · rw [exportMediaLoop, if_neg hsp] at hx
      dsimp only at hx
      rcases List.mem_cons.mp hx with h | h
      · exact h
      · exact ih _ x h

/-- Every progress event of the per-document export loop is `fetching`. -/
theorem exportLoop_statuses (env : FireEnv) :
    ∀ (ds : List FireDoc) (blobs : List (String × String)),
    ∀ x ∈ (exportLoop env blobs ds).2.2, x = MStatus.fetching := by
  intro ds
  induction ds with
  | nil => intro blobs x hx; simp [exportLoop] at hx
  | cons d ds ih =>
    intro blobs x hx
    simp only [exportLoop] at hx
    rcases List.mem_append.mp hx with h | h
    · exact exportMediaLoop_statuses env _ _ x h
    · rcases List.mem_cons.mp h with h | h
      · exact h
      · exact ih _ x h

/-- The export phase opens with a `fetching` event and emits nothing but
`fetching`. -/
theorem exportFromFirebase_trace (env : FireEnv) (uid : String) :
    ∃ rest, (exportFromFirebase env uid).2 = .fetching :: rest ∧
      ∀ x ∈ rest, x = MStatus.fetching := by
  unfold exportFromFirebase
  by_cases hq : env.queryOk = true
  · rw [if_neg (by simp [hq])]
    exact ⟨_, rfl, fun x hx => exportLoop_statuses env _ [] x hx⟩
  · rw [if_pos (by simp [hq])]
    exact ⟨[], rfl, by simp⟩

/-- Every progress event of the import loop is `uploading`. -/
theorem importLoop_statuses {σ : Type} (T : Target σ) (blobs : List (String × String)) :
    ∀ (mems : List Memory) (st : σ),
    ∀ x ∈ (importLoop T blobs st mems).2, x = MStatus.uploading := by
  intro mems
  induction mems with
  | nil => intro st x hx; simp [importLoop] at hx
  | cons m rest ih =>
    intro st x hx
    simp only [importLoop] at hx
    rcases List.mem_cons.mp hx with h | h
    · exact h
    · exact ih _ x h

/-- The import phase either rejects before emitting any event (initialization
failure) or resolves with a trace of `uploading` events closed by one
`complete`. -/
theorem importToNewPlatform_trace {σ : Type} (T : Target σ) (st : σ)
    (mems : List Memory) (blobs : List (String × String)) (nuid : String) :
    ((∃ e, (importToNewPlatform T st mems blobs nuid).2.1 = .error e) ∧
      (importToNewPlatform T st mems blobs nuid).2.2 = []) ∨
    ((importToNewPlatform T st mems blobs nuid).2.1 = .ok () ∧
      ∃ tr, (importToNewPlatform T st mems blobs nuid).2.2 = tr ++ [.complete] ∧
        ∀ x ∈ tr, x = MStatus.uploading) := by
  unfold importToNewPlatform
  dsimp only
  rcases hini : (T.init st nuid).2 with e | u
  · exact Or.inl ⟨⟨e, rfl⟩, rfl⟩
  · cases u
    exact Or.inr ⟨rfl, _, rfl, importLoop_statuses T blobs mems _⟩

/-- Properties of the canonical migration trace
`connecting, fetching, fetching*, uploading*, last`. -/
theorem migTrace_spec (extr mid : List MStatus) (last : MStatus)
    (hex : ∀ x ∈ extr, x = MStatus.fetching)
    (hmid : ∀ x ∈ mid, x = MStatus.uploading)
    (hlast : last = MStatus.complete ∨ last = MStatus.error) :
    (MStatus.connecting :: MStatus.fetching :: (extr ++ (mid ++ [last]))).head? =
      some MStatus.connecting ∧
    (MStatus.connecting :: MStatus.fetching :: (extr ++ (mid ++ [last]))).count
      MStatus.connecting = 1 ∧
    (∀ n : Nat, (MStatus.connecting :: MStatus.fetching :: (extr ++ (mid ++ [last])))[n]? =
        some MStatus.uploading →
      ∃ j : Nat, j < n ∧ (MStatus.connecting :: MStatus.fetching ::
        (extr ++ (mid ++ [last])))[j]? = some MStatus.fetching) ∧
    (∀ x ∈ (MStatus.connecting :: MStatus.fetching ::
        (extr ++ (mid ++ [last]))).dropLast, x ≠ MStatus.error) ∧
    (MStatus.connecting :: MStatus.fetching :: (extr ++ (mid ++ [last]))).getLast? =
      some last := by
  have hconcat : MStatus.connecting :: MStatus.fetching :: (extr ++ (mid ++ [last])) =
      (MStatus.connecting :: MStatus.fetching :: (extr ++ mid)) ++ [last] := by
    simp
  refine ⟨rfl, ?_, ?_, ?_, ?_⟩
  · rw [List.count_cons_self]
    have hz : (MStatus.fetching :: (extr ++ (mid ++ [last]))).count MStatus.connecting = 0 := by
      refine List.count_eq_zero.mpr (fun hc => ?_)
      rcases List.mem_cons.mp hc with h | h
      · exact absurd h (by decide)
      · rcases List.mem_append.mp h with h | h
        · exact absurd (hex _ h) (by decide)
        · rcases List.mem_append.mp h with h | h
          · exact absurd (hmid _ h) (by decide)
          · rcases hlast with hl | hl <;> simp_all
    rw [hz]
  · intro n hn
    match n, hn with
    | 0, hn => exact absurd hn (by simp)
    | 1, hn => exact absurd hn (by simp)
    | (k + 2), hn => exact ⟨1, by omega, by simp⟩
  · intro x hx
    rw [hconcat, List.dropLast_concat] at hx
    rcases List.mem_cons.mp hx with h | h
    · subst h; decide
    · rcases List.mem_cons.mp h with h | h
      · subst h; decide
      · rcases List.mem_append.mp h with h | h
        · rw [hex _ h]; decide
        · rw [hmid _ h]; decide
  · rw [hconcat, List.getLast?_concat]

end MemoryKeeper

namespace MemoryKeeper

/-- C8: every run of the migration engine emits progress statuses respecting
`connecting → fetching → uploading → complete | error`: the trace opens with
exactly one `connecting`, `uploading` is never reported before a `fetching`
has been reported, `error` occurs only as the final event (any phase can end
the run there), the run ends in `complete` or `error`, and it ends in `error`
exactly when the result reports failure — one terminal event per run, with no
automatic retry inside the engine. -/
theorem C8_progress_state_machine {σ : Type} (env : FireEnv) (uid : String)
    (T : Target σ) (st : σ) (nuid : String) :
    ((performFullMigration env uid T st nuid).2.2).head? = some MStatus.connecting ∧
    ((performFullMigration env uid T st nuid).2.2).count MStatus.connecting = 1 ∧
    (∀ n : Nat, ((performFullMigration env uid T st nuid).2.2)[n]? =
        some MStatus.uploading →
      ∃ j : Nat, j < n ∧ ((performFullMigration env uid T st nuid).2.2)[j]? =
        some MStatus.fetching) ∧
    (∀ x ∈ ((performFullMigration env uid T st nuid).2.2).dropLast,
      x ≠ MStatus.error) ∧
    (((performFullMigration env uid T st nuid).2.1).success = false ↔
      ((performFullMigration env uid T st nuid).2.2).getLast? = some MStatus.error) ∧
    (((performFullMigration env uid T st nuid).2.2).getLast? = some MStatus.complete ∨
      ((performFullMigration env uid T st nuid).2.2).getLast? = some MStatus.error) := by
  obtain ⟨extr, hex, hexall⟩ := exportFromFirebase_trace env uid
  rcases hexr : (exportFromFirebase env uid).1 with e | mb
  · have hperf : performFullMigration env uid T st nuid =
        (st, { success := false, migratedCount := 0, error := some e.msg },
         .connecting :: (exportFromFirebase env uid).2 ++ [.error]) := by
      unfold performFullMigration
      dsimp only
      rw [hexr]
    have htr : (performFullMigration env uid T st nuid).2.2 =
        MStatus.connecting :: MStatus.fetching :: (extr ++ ([] ++ [MStatus.error])) := by
      rw [hperf]
      dsimp only
      rw [hex]
      simp
    have hsucc : (performFullMigration env uid T st nuid).2.1.success = false := by
      rw [hperf]
    have hspec := migTrace_spec extr [] MStatus.error hexall (by simp) (Or.inr rfl)
    rw [← htr] at hspec
    exact ⟨hspec.1, hspec.2.1, hspec.2.2.1, hspec.2.2.2.1,
      iff_of_true hsucc hspec.2.2.2.2, Or.inr hspec.2.2.2.2⟩
  · rcases mb with ⟨mems, blobs⟩
    by_cases hemp : mems.isEmpty = true
    · have hperf : performFullMigration env uid T st nuid =
          (st, { success := true, migratedCount := 0, error := none },
           .connecting :: (exportFromFirebase env uid).2 ++ [.complete]) := by
        unfold performFullMigration
        dsimp only
        rw [hexr]
        dsimp only
        rw [if_pos hemp]
      have htr : (performFullMigration env uid T st nuid).2.2 =
          MStatus.connecting :: MStatus.fetching :: (extr ++ ([] ++ [MStatus.complete])) := by
        rw [hperf]
        dsimp only
        rw [hex]
        simp
      have hsucc : (performFullMigration env uid T st nuid).2.1.success = true := by
        rw [hperf]
      have hspec := migTrace_spec extr [] MStatus.complete hexall (by simp) (Or.inl rfl)
      rw [← htr] at hspec
      exact ⟨hspec.1, hspec.2.1, hspec.2.2.1, hspec.2.2.2.1,
        iff_of_false (by simp [hsucc]) (by simp [hspec.2.2.2.2]),
        Or.inl hspec.2.2.2.2⟩
    · rcases importToNewPlatform_trace T st mems blobs nuid with
        ⟨⟨e2, himpe⟩, himptr⟩ | ⟨himpok, imtr, himptr, himall⟩
      · have hperf : performFullMigration env uid T st nuid =
            ((importToNewPlatform T st mems blobs nuid).1,
             { success := false, migratedCount := 0, error := some e2.msg },
             .connecting :: (exportFromFirebase env uid).2 ++
               (importToNewPlatform T st mems blobs nuid).2.2 ++ [.error]) := by
          unfold performFullMigration
          dsimp only
          rw [hexr]
          dsimp only
          rw [if_neg hemp]
          rw [himpe]
        have htr : (performFullMigration env uid T st nuid).2.2 =
            MStatus.connecting :: MStatus.fetching :: (extr ++ ([] ++ [MStatus.error])) := by
          rw [hperf]
          dsimp only
          rw [hex, himptr]
          simp
        have hsucc : (performFullMigration env uid T st nuid).2.1.success = false := by
          rw [hperf]
        have hspec := migTrace_spec extr [] MStatus.error hexall (by simp) (Or.inr rfl)
        rw [← htr] at hspec
        exact ⟨hspec.1, hspec.2.1, hspec.2.2.1, hspec.2.2.2.1,
          iff_of_true hsucc hspec.2.2.2.2, Or.inr hspec.2.2.2.2⟩
      · have hperf : performFullMigration env uid T st nuid =
            ((importToNewPlatform T st mems blobs nuid).1,
             { success := true, migratedCount := mems.length, error := none },
             .connecting :: (exportFromFirebase env uid).2 ++
               (importToNewPlatform T st mems blobs nuid).2.2) := by
          unfold performFullMigration
          dsimp only
          rw [hexr]
          dsimp only
          rw [if_neg hemp]
          rw [himpok]
        have htr : (performFullMigration env uid T st nuid).2.2 =
            MStatus.connecting :: MStatus.fetching ::
              (extr ++ (imtr ++ [MStatus.complete])) := by
          rw [hperf]
          dsimp only
          rw [hex, himptr]
          simp
        have hsucc : (performFullMigration env uid T st nuid).2.1.success = true := by
          rw [hperf]
        have hspec := migTrace_spec extr imtr MStatus.complete hexall himall (Or.inl rfl)
        rw [← htr] at hspec
        exact ⟨hspec.1, hspec.2.1, hspec.2.2.1, hspec.2.2.2.1,
          iff_of_false (by simp [hsucc]) (by simp [hspec.2.2.2.2]),
          Or.inl hspec.2.2.2.2⟩

end MemoryKeeper

namespace MemoryKeeper

/-- The export loop normalizes every queried document, in order, regardless
of blob failures. -/
theorem exportLoop_mems (env : FireEnv) :
    ∀ (ds : List FireDoc) (blobs : List (String × String)),
    (exportLoop env blobs ds).1 = ds.map docToMemory := by
  intro ds
  induction ds with
  | nil => intro blobs; rfl
  | cons d ds ih =>
    intro blobs
    simp only [exportLoop, List.map_cons]
    rw [ih]

/-- Membership in a map after `Map.set`. -/
theorem mem_setBlob {m : List (String × String)} {k v k' v' : String}
    (h : (k, v) ∈ setBlob m k' v') : (k = k' ∧ v = v') ∨ (k, v) ∈ m := by
  induction m with
  | nil =>
    simp only [setBlob, List.mem_singleton, Prod.mk.injEq] at h
    exact Or.inl h
  | cons p rest ih =>
    rcases p with ⟨pk, pv⟩
    simp only [setBlob] at h
    by_cases hk : pk == k'
    · rw [if_pos hk] at h
      rcases List.mem_cons.mp h with h1 | h1
      · simp only [Prod.mk.injEq] at h1
        exact Or.inl h1
      · exact Or.inr (List.mem_cons_of_mem _ h1)
    · rw [if_neg hk] at h
      rcases List.mem_cons.mp h with h1 | h1
      · exact Or.inr (List.mem_cons.mpr (Or.inl h1))
      · rcases ih h1 with h2 | h2
        · exact Or.inl h2
        · exact Or.inr (List.mem_cons_of_mem _ h2)

/-- A successful map lookup witnesses membership. -/
theorem getBlob?_mem {m : List (String × String)} {k v : String}
    (h : getBlob? m k = some v) : (k, v) ∈ m := by
  unfold getBlob? at h
  rcases hf : m.find? (fun kv => kv.1 == k) with _ | p
  · rw [hf] at h; simp at h
  · rw [hf] at h
    have hv : p.2 = v := by simpa using h
    have hmem := List.mem_of_find?_eq_some hf
    have hpk : p.1 = k := by simpa using List.find?_some hf
    have : p = (k, v) := by
      rcases p with ⟨pk, pv⟩
      simp only at hpk hv
      rw [hpk, hv]
    rwa [← this]

/-- Every entry of the blob map produced by the media loop either was already
present or comes from an attachment whose download was attempted and
succeeded. -/
theorem exportMediaLoop_blobs (env : FireEnv) :
    ∀ (ms : List MediaAttachment) (blobs : List (String × String)) {k v : String},
    (k, v) ∈ (exportMediaLoop env blobs ms).1 →
    (k, v) ∈ blobs ∨ ∃ a ∈ ms, a.id = k ∧ a.storagePath ≠ "" ∧
      env.blobOk a.storagePath = true ∧ v = env.blob a.storagePath := by
  intro ms
  induction ms with
  | nil =>
    intro blobs k v h
    simp only [exportMediaLoop] at h
    exact Or.inl h
  | cons a rest ih =>
    intro blobs k v h
    by_cases hsp : a.storagePath = ""
    · rw [exportMediaLoop, if_pos hsp] at h
      rcases ih blobs h with h' | ⟨a', ha', h1, h2, h3, h4⟩
      · exact Or.inl h'
      · exact Or.inr ⟨a', List.mem_cons_of_mem _ ha', h1, h2, h3, h4⟩
    · rw [exportMediaLoop, if_neg hsp] at h
      dsimp only at h
      by_cases hok : env.blobOk a.storagePath = true
      · rw [if_pos hok] at h
        rcases ih _ h with h' | ⟨a', ha', h1, h2, h3, h4⟩
        · rcases mem_setBlob h' with ⟨hk, hv⟩ | h''
          · exact Or.inr ⟨a, List.mem_cons_self a rest, hk.symm, hsp, hok, hv⟩
          · exact Or.inl h''
        · exact Or.inr ⟨a', List.mem_cons_of_mem _ ha', h1, h2, h3, h4⟩
      · rw [if_neg hok] at h
        rcases ih _ h with h' | ⟨a', ha', h1, h2, h3, h4⟩
        · exact Or.inl h'
        · exact Or.inr ⟨a', List.mem_cons_of_mem _ ha', h1, h2, h3, h4⟩

/-- Every entry of the final blob map comes from some exported document's
attachment whose download succeeded. -/
theorem exportLoop_blobs (env : FireEnv) :
    ∀ (ds : List FireDoc) (blobs : List (String × String)) {k v : String},
    (k, v) ∈ (exportLoop env blobs ds).2.1 →
    (k, v) ∈ blobs ∨ ∃ d ∈ ds, ∃ a ∈ (docToMemory d).media, a.id = k ∧
      a.storagePath ≠ "" ∧ env.blobOk a.storagePath = true ∧
      v = env.blob a.storagePath := by
  intro ds
  induction ds with
  | nil =>
    intro blobs k v h
    simp only [exportLoop] at h
    exact Or.inl h
  | cons d ds ih =>
    intro blobs k v h
    simp only [exportLoop] at h
    rcases ih _ h with h' | ⟨d', hd', a, ha, h1, h2, h3, h4⟩
    · rcases exportMediaLoop_blobs env _ blobs h' with h'' | ⟨a, ha, h1, h2, h3, h4⟩
      · exact Or.inl h''
      · exact Or.inr ⟨d, List.mem_cons_self d ds, a, ha, h1, h2, h3, h4⟩
    · exact Or.inr ⟨d', List.mem_cons_of_mem _ hd', a, ha, h1, h2, h3, h4⟩

end MemoryKeeper

namespace MemoryKeeper

/-- C3 (amended): when the Firebase query succeeds, `exportFromFirebase`
returns every one of the user's records regardless of blob failures (a failed
attachment download is merely absent from the returned blob map), and
`performFullMigration` reports `success := true` with `migratedCount` equal
to the number of exported records whenever the target initializes — even when
every per-record import fails.  But export failure is not the only fatal
phase: a target `initialize` rejection also makes the whole run report
`success := false` (see the counterexample), so "only the connection/export
phase is fatal" is too strong. -/
theorem C3_partial_failure {σ : Type} (env : FireEnv) (uid : String)
    (T : Target σ) (st : σ) (nuid : String) (hq : env.queryOk = true) :
    (exportFromFirebase env uid).1 =
      .ok ((env.docs.filter (fun d => d.userId == uid)).map docToMemory,
           (exportLoop env [] (env.docs.filter (fun d => d.userId == uid))).2.1) ∧
    (∀ k v, getBlob?
        ((exportLoop env [] (env.docs.filter (fun d => d.userId == uid))).2.1) k =
        some v →
      ∃ d ∈ env.docs.filter (fun d => d.userId == uid),
        ∃ a ∈ (docToMemory d).media, a.id = k ∧ a.storagePath ≠ "" ∧
          env.blobOk a.storagePath = true ∧ v = env.blob a.storagePath) ∧
    ((env.docs.filter (fun d => d.userId == uid) ≠ [] →
        (T.init st nuid).2 = .ok ()) →
      (performFullMigration env uid T st nuid).2.1 =
        { success := true,
          migratedCount := (env.docs.filter (fun d => d.userId == uid)).length,
          error := none }) := by
  have hexp : (exportFromFirebase env uid).1 =
      .ok ((env.docs.filter (fun d => d.userId == uid)).map docToMemory,
           (exportLoop env [] (env.docs.filter (fun d => d.userId == uid))).2.1) := by
    unfold exportFromFirebase
    rw [if_neg (by simp [hq])]
    dsimp only
    rw [exportLoop_mems]
  refine ⟨hexp, ?_, ?_⟩
  · intro k v hkv
    rcases exportLoop_blobs env _ [] (getBlob?_mem hkv) with h | h
    · simp at h
    · exact h
  · intro hini
    by_cases hds : env.docs.filter (fun d => d.userId == uid) = []
    · have hperf : performFullMigration env uid T st nuid =
          (st, { success := true, migratedCount := 0, error := none },
           .connecting :: (exportFromFirebase env uid).2 ++ [.complete]) := by
        unfold performFullMigration
        dsimp only
        rw [hexp]
        dsimp only
        rw [if_pos (by simp [hds])]
      rw [hperf, hds]
      rfl
    · have himp : (importToNewPlatform T st
          ((env.docs.filter (fun d => d.userId == uid)).map docToMemory)
          ((exportLoop env [] (env.docs.filter (fun d => d.userId == uid))).2.1)
          nuid).2.1 = .ok () := by
        unfold importToNewPlatform
        dsimp only
        rw [hini hds]
      have hperf : (performFullMigration env uid T st nuid).2.1 =
          { success := true,
            migratedCount :=
              ((env.docs.filter (fun d => d.userId == uid)).map docToMemory).length,
            error := none } := by
        unfold performFullMigration
        dsimp only
        rw [hexp]
        dsimp only
        rw [if_neg (by simp [hds])]
        rw [himp]
      rw [hperf]
      simp

end MemoryKeeper

namespace MemoryKeeper

/-- An attachment of legacy record 2 whose blob download succeeds. -/
def att2 : MediaAttachment :=
  { id := "m2", type := .image, url := "u2", fileName := "f2.png", storagePath := "p2" }

/-- An attachment of legacy record 3 whose blob download fails. -/
def att3 : MediaAttachment :=
  { id := "m3", type := .image, url := "u3", fileName := "f3.png", storagePath := "p3" }

/-- A legacy Firestore document of user `u`. -/
def fdoc (n : String) (med : List MediaAttachment) : FireDoc :=
  { id := n, text := some ("t" ++ n), tags := some [], media := some med,
    createdAt := some 0, updatedAt := some 0, userId := "u" }

/-- Five legacy memories of user `u`; the blob of record 3's attachment fails
to download. -/
def fenv5 : FireEnv :=
  { queryOk := true,
    docs := [fdoc "1" [], fdoc "2" [att2], fdoc "3" [att3], fdoc "4" [], fdoc "5" []],
    blobOk := fun p => if p = "p3" then false else true,
    blob := fun p => "B" ++ p }

/-- A target provider that accepts everything. -/
def tgtOk : Target Unit :=
  { init := fun st _ => (st, .ok ()),
    uploadMedia := fun st f =>
      (st, .ok { id := "m-" ++ f.name, type := mediaTypeOfMime f.mimeType,
                 url := "u", fileName := f.name, storagePath := "p" }),
    createMemory := fun st i =>
      (st, .ok { id := "n1", text := i.text, tags := i.tags, media := [],
                 createdAt := 0, updatedAt := 0, userId := "nu" }),
    getMemories := fun st => (st, .ok []),
    updateMemory := fun st _ _ _ => (st, .error (.js "nope")) }

/-- A target provider whose every `createMemory` rejects. -/
def tgtFailCreate : Target Unit :=
  { tgtOk with createMemory := fun st _ => (st, .error (.js "create down")) }

/-- A target provider whose `initialize` rejects. -/
def tgtFail : Target Unit :=
  { tgtOk with init := fun st _ => (st, .error (.js "init down")) }

/-- Witness for C3: five records, one failed blob, every `createMemory`
failing — the run still reports five migrated records. -/
theorem C3_witness :
    (exportFromFirebase fenv5 "u").1 =
      .ok ((fenv5.docs.filter (fun d => d.userId == "u")).map docToMemory,
           (exportLoop fenv5 [] (fenv5.docs.filter (fun d => d.userId == "u"))).2.1) ∧
    (performFullMigration fenv5 "u" tgtFailCreate () "nu").2.1 =
      { success := true, migratedCount := 5, error := none } :=
  ⟨(C3_partial_failure fenv5 "u" tgtFailCreate () "nu" rfl).1,
   (C3_partial_failure fenv5 "u" tgtFailCreate () "nu" rfl).2.2 (fun _ => rfl)⟩

/-- C3 counterexample: with the same five exportable records, a rejection of
the target's `initialize` — inside the import phase, not the
connection/export phase — still makes the whole run report
`success := false`, refuting "only a failure of the connection/export phase
itself makes the whole run return success:false".  The export itself
succeeded with all five records, record 3's failed attachment absent from
the blob map while record 2's blob is present. -/
theorem C3_counterexample :
    (exportFromFirebase fenv5 "u").1 =
      .ok ((fenv5.docs.filter (fun d => d.userId == "u")).map docToMemory,
           [("m2", "Bp2")]) ∧
    ((fenv5.docs.filter (fun d => d.userId == "u")).map docToMemory).length = 5 ∧
    getBlob? [("m2", "Bp2")] "m3" = none ∧
    (performFullMigration fenv5 "u" tgtFail () "nu").2.1 =
      { success := false, migratedCount := 0, error := some "init down" } :=
  ⟨rfl, rfl, rfl, rfl⟩

end MemoryKeeper

namespace MemoryKeeper

/-- Witness for C8: a full five-record run — the trace opens with one
`connecting`, the `uploading` event at index 9 is preceded by a `fetching`,
and the run terminates in `complete`. -/
theorem C8_witness :
    ((performFullMigration fenv5 "u" tgtOk () "nu").2.2).head? =
      some MStatus.connecting ∧
    ((performFullMigration fenv5 "u" tgtOk () "nu").2.2).count MStatus.connecting = 1 ∧
    (∃ j : Nat, j < 9 ∧ ((performFullMigration fenv5 "u" tgtOk () "nu").2.2)[j]? =
      some MStatus.fetching) ∧
    (∀ x ∈ ((performFullMigration fenv5 "u" tgtOk () "nu").2.2).dropLast,
      x ≠ MStatus.error) :=
  ⟨(C8_progress_state_machine fenv5 "u" tgtOk () "nu").1,
   (C8_progress_state_machine fenv5 "u" tgtOk () "nu").2.1,
   (C8_progress_state_machine fenv5 "u" tgtOk () "nu").2.2.1 9 (by rfl),
   (C8_progress_state_machine fenv5 "u" tgtOk () "nu").2.2.2.1⟩

end MemoryKeeper
